import Mathlib

/-!
Packet framing of cellnet (`util/packet.go`)

A shallow embedding of the three receive routines of `util/packet.go`
(`RecvLTVPacket`, `RecvMbPacket`, `RecvTkProxyPacket`) together with the small part
of the Go standard library they rest on (`io.ReadFull`, `binary.LittleEndian`,
`bytes.Reader` + `binary.Read`, `make`, slicing and `copy`), of the send routines
(`SendLTVPacket`, `SendMBPacket`, `SendTkProxyPacket`), of the two transmitters of
`proc/custom/transmitter.go`, and of the codec registry as the specification
describes it.

Conventions of the embedding

* a byte is a `Fin 256`; a Go slice that may be `nil` is an `Option (List Byte)`;
* a Go `int` is an `Int`; the conversions `uint16(x)` and `uint32(x)` are the
  explicit reductions modulo `2^16` and `2^32`; arithmetic on `uint32` wraps
  modulo `2^32`;
* an `io.Reader` is the byte stream it will still deliver, followed by the error
  its `Read` reports once that stream is exhausted; that error can be any Go error
  value, and the routines hand it on as the value it is;
* each routine returns a `Run`: what the Go function returned (or that it
  panicked), the reader as it is left behind, and the list of calls made to
  `codec.DecodeMessage`.
-/

namespace Cellnet

/-- One octet. -/
abbrev Byte := Fin 256

/-- A Go `[]byte` value that may be `nil`. -/
abbrev Slice := Option (List Byte)

/-- Error values of the transport: the two values of package `io`, an error value that
implements `net.Error` (`net code timeout`, with `Timeout()` returning `timeout`), and
any other error value, which does not implement `net.Error` (`other code`). -/
inductive IOError where
  | EOF
  | ErrUnexpectedEOF
  | net (code : Nat) (timeout : Bool)
  | other (code : Nat)
  deriving DecidableEq, Repr

/-- An error value made by the codec registry. -/
structure CodecError where
  text : String
  deriving DecidableEq, Repr

/-- Go `error` values: an error value of the transport, one of the three package-level
variables of `packet.go`, a value made by `errors.New` with the given text (two such
values with the same text are not told apart), or an error value of the codec registry.
A reader, a writer and the codec registry can fail with any of these values; the
routines return the value they were handed, unchanged. Only the `transport (net ..)`
values implement `net.Error`. -/
inductive Error where
  | transport (e : IOError)
  | ErrMaxPacket
  | ErrMinPacket
  | ErrShortMsgID
  | New (text : String)
  | codec (e : CodecError)
  deriving DecidableEq, Repr

/-- Size of the LTV length field (`bodySize`). -/
def bodySize : Nat := 2
/-- Size of the message-ID field (`msgIDSize`). -/
def msgIDSize : Nat := 2
/-- Size of the mobile header (`mbHeaderSize`). -/
def mbHeaderSize : Nat := 8
/-- Offset of the length field in the mobile header (`mbHeaderBodyLenPos`). -/
def mbHeaderBodyLenPos : Nat := 4
/-- Size of the proxy header (`tkProxyHeaderSize`). -/
def tkProxyHeaderSize : Nat := 24
/-- Offset of the length field in the proxy header (`tkPorxyHeaderBodyLenPos`). -/
def tkPorxyHeaderBodyLenPos : Nat := 20
/-- Error number of the timeout sentinel (`serverMsgErrorTimeOut`). -/
def serverMsgErrorTimeOut : Int := 1

/-- The struct `MBMsgRecv`. -/
structure MBMsgRecv where
  Header : Slice
  Data : Slice
  deriving DecidableEq, Repr

/-- The struct `ConServerMsgRecv`. -/
structure ConServerMsgRecv where
  Data : Slice
  ErrNo : Int
  deriving DecidableEq, Repr

/-- A Go `interface{}` value as the receive routines return it: `nil`, one of the two
structs of `packet.go`, or a message `m : M` produced by the codec registry. -/
inductive Value (M : Type) where
  | nil
  | mb (m : MBMsgRecv)
  | conServer (m : ConServerMsgRecv)
  | user (m : M)
  deriving DecidableEq, Repr

/-- How a call ended: it returned `(msg, err)` (`err = none` is Go's `nil` error), or
it panicked. -/
inductive Outcome (M : Type) where
  | ret (msg : Value M) (err : Option Error)
  | panic (text : String)
  deriving DecidableEq, Repr

/-- An `io.Reader`: the bytes it will still deliver, and the error `Read` reports once
they are used up. -/
structure Reader where
  data : List Byte
  fail : Error
  deriving DecidableEq, Repr

/-- The complete observable effect of one call of a receive routine. -/
structure Run (M : Type) where
  outcome : Outcome M
  reader : Reader
  decodeCalls : List (Nat × List Byte)
  deriving DecidableEq, Repr

/-- The type of `codec.DecodeMessage(id, data)`, without the meta value that the
receive routines throw away: the message and the error (`none` for `nil`). -/
abbrev Decoder (M : Type) := Nat → List Byte → Value M × Option Error

/-- Go's `io.ReadFull(r, buf)` with `len(buf) = n`: reads exactly `n` bytes. With `n`
bytes available (in particular for `n = 0`, where `Read` is never called) it succeeds
and leaves the rest of the stream. Otherwise it uses up what there is and returns the
reader's error, except that `EOF` after at least one byte becomes `ErrUnexpectedEOF`. -/
def ReadFull (r : Reader) (n : Nat) : Except Error (List Byte) × Reader :=
  if n ≤ r.data.length then
    (.ok (r.data.take n), { r with data := r.data.drop n })
  else
    (.error (if r.data ≠ [] ∧ r.fail = .transport .EOF then .transport .ErrUnexpectedEOF
        else r.fail),
      { r with data := [] })

/-- Go's `binary.LittleEndian.Uint16(b)`; `none` is the index-out-of-range panic on a
slice shorter than two bytes. -/
def Uint16 (b : List Byte) : Option Nat :=
  match b with
  | b0 :: b1 :: _ => some (b0.val + 256 * b1.val)
  | _ => none

/-- The `uint32` that four bytes spell in little-endian order. -/
def le32 (b0 b1 b2 b3 : Byte) : Nat :=
  b0.val + 256 * b1.val + 65536 * b2.val + 16777216 * b3.val

/-- The sequence `buf := bytes.NewReader(header); buf.Seek(pos, io.SeekStart);
binary.Read(buf, binary.LittleEndian, &bodyLen)` for a `uint32`: the little-endian
value of the four bytes at offset `pos`; `none` when fewer than four bytes are left
(`binary.Read` then returns an error). -/
def readUint32At (header : List Byte) (pos : Nat) : Option Nat :=
  match header.drop pos with
  | b0 :: b1 :: b2 :: b3 :: _ => some (le32 b0 b1 b2 b3)
  | _ => none

/-- The conversion `uint16(x)` of a Go `int`. -/
def uint16 (x : Int) : Nat := (x % 65536).toNat

/-- The conversion `uint32(x)` of a Go `int`. -/
def uint32 (x : Int) : Nat := (x % 4294967296).toNat

/-- Go's `copy(dst, src)`: the first `min(len(dst), len(src))` bytes of `dst` are
replaced by those of `src`. -/
def copy (dst src : List Byte) : List Byte :=
  src.take dst.length ++ dst.drop src.length

/-- The routine `RecvLTVPacket(reader, maxPacketSize)`, with `codec.DecodeMessage`
passed as `decode`. -/
def RecvLTVPacket {M : Type} (decode : Decoder M) (reader : Reader) (maxPacketSize : Int) :
    Run M :=
  match ReadFull reader bodySize with
  | (.error e, r1) => ⟨.ret .nil (some e), r1, []⟩
  | (.ok sizeBuffer, r1) =>
    if sizeBuffer.length < bodySize then ⟨.ret .nil (some .ErrMinPacket), r1, []⟩
    else
      match Uint16 sizeBuffer with
      | none => ⟨.panic "index out of range", r1, []⟩
      | some size =>
        if maxPacketSize > 0 ∧ size ≥ uint16 maxPacketSize then
          ⟨.ret .nil (some .ErrMaxPacket), r1, []⟩
        else
          match ReadFull r1 size with
          | (.error e, r2) => ⟨.ret .nil (some e), r2, []⟩
          | (.ok body, r2) =>
            if body.length < msgIDSize then ⟨.ret .nil (some .ErrShortMsgID), r2, []⟩
            else
              match Uint16 body with
              | none => ⟨.panic "index out of range", r2, []⟩
              | some msgid =>
                let msgData := body.drop msgIDSize
                match decode msgid msgData with
                | (_, some e) => ⟨.ret .nil (some e), r2, [(msgid, msgData)]⟩
                | (msg, none) => ⟨.ret msg none, r2, [(msgid, msgData)]⟩

/-- The routine `RecvMbPacket(reader, maxPacketSize)`. It never calls the codec
registry, so its list of decode calls is empty on every path. -/
def RecvMbPacket {M : Type} (reader : Reader) (maxPacketSize : Int) : Run M :=
  match ReadFull reader mbHeaderSize with
  | (.error e, r1) => ⟨.ret .nil (some e), r1, []⟩
  | (.ok header, r1) =>
    if header.length < mbHeaderSize then ⟨.ret .nil (some .ErrMinPacket), r1, []⟩
    else
      match readUint32At header mbHeaderBodyLenPos with
      | none => ⟨.ret .nil (some (.New "RecvMbPacket read header failed")), r1, []⟩
      | some bodyLen =>
        if maxPacketSize > 0 ∧ bodyLen ≥ uint32 maxPacketSize then
          ⟨.ret .nil (some .ErrMaxPacket), r1, []⟩
        else if bodyLen = 0 then
          ⟨.ret (.mb { Header := some header, Data := none }) none, r1, []⟩
        else
          match ReadFull r1 bodyLen with
          | (.error _, r2) => ⟨.ret .nil (some (.New "RecvMbPacket read body failed")), r2, []⟩
          | (.ok body, r2) =>
            if body.length < msgIDSize then ⟨.ret .nil (some .ErrShortMsgID), r2, []⟩
            else ⟨.ret (.mb { Header := some header, Data := some body }) none, r2, []⟩

/-- The routine `RecvTkProxyPacket(reader, maxPacketSize)`. The buffer length
`tkProxyHeaderSize+bodyLen` is computed in `uint32`, so it wraps modulo `2^32`; the
slice expression `data[tkProxyHeaderSize:]` panics when the buffer is shorter than the
header. -/
def RecvTkProxyPacket {M : Type} (reader : Reader) (maxPacketSize : Int) : Run M :=
  match ReadFull reader tkProxyHeaderSize with
  | (.error e, r1) =>
    match e with
    | .transport (.net _ true) =>
      ⟨.ret (.conServer { Data := none, ErrNo := serverMsgErrorTimeOut }) none, r1, []⟩
    | _ => ⟨.ret .nil (some e), r1, []⟩
  | (.ok header, r1) =>
    if header.length < tkProxyHeaderSize then ⟨.ret .nil (some .ErrMinPacket), r1, []⟩
    else
      match readUint32At header tkPorxyHeaderBodyLenPos with
      | none => ⟨.ret .nil (some (.New "RecvTkProxyPacket read header failed")), r1, []⟩
      | some bodyLen =>
        if maxPacketSize > 0 ∧ bodyLen ≥ uint32 maxPacketSize then
          ⟨.ret .nil (some .ErrMaxPacket), r1, []⟩
        else if bodyLen = 0 then
          ⟨.ret (.conServer { Data := some header, ErrNo := 0 }) none, r1, []⟩
        else
          let data : List Byte := List.replicate ((tkProxyHeaderSize + bodyLen) % 4294967296) 0
          if data.length < tkProxyHeaderSize then
            ⟨.panic "slice bounds out of range", r1, []⟩
          else
            match ReadFull r1 (data.length - tkProxyHeaderSize) with
            | (.error _, r2) =>
              ⟨.ret .nil (some (.New "RecvTkProxyPacket, read body failed")), r2, []⟩
            | (.ok body, r2) =>
              let data := copy (data.take tkProxyHeaderSize ++ body) header
              ⟨.ret (.conServer { Data := some data, ErrNo := 0 }) none, r2, []⟩

/-- A codec registry used to run the routines on concrete streams: only message ID 42
is registered, and its codec returns the ID and the payload as the message. -/
def echoDecoder : Decoder (Nat × List Byte) := fun id data =>
  if id = 42 then (.user (id, data), none) else (.nil, some (.codec ⟨"msg not exists"⟩))

/-! ## The send side -/

/-- The struct `cellnet.RawPacket`: a payload that is already serialized, and its
message ID. -/
structure RawPacket where
  MsgData : List Byte
  MsgID : Int
  deriving DecidableEq, Repr

/-- The struct `cellnet.MessageMeta`, with the two fields `SendLTVPacket` reads: the
numeric ID and the codec that owns the encoded bytes. -/
structure MessageMeta (C : Type) where
  ID : Int
  Codec : C
  deriving DecidableEq, Repr

/-- The `data interface{}` argument of `SendLTVPacket`: a `*cellnet.RawPacket` that
points to a packet, or any other value `v : V`. -/
inductive SendData (V : Type) where
  | raw (m : RawPacket)
  | value (v : V)
  deriving DecidableEq, Repr

/-- A call that `SendLTVPacket` makes to a collaborator: `codec.EncodeMessage(data, ctx)`,
`WriteFull(writer, pkt)` or `codec.FreeCodecResource(codec, msgData, ctx)`. The context
`ctx` is only handed through and is left out. -/
inductive SendEvent (V C : Type) where
  | encode (data : V)
  | write (pkt : List Byte)
  | free (codec : C) (msgData : List Byte)
  deriving DecidableEq, Repr

/-- How a send call ended: it returned `err` (`none` is Go's `nil`), or it panicked. -/
inductive SendOutcome where
  | ret (err : Option Error)
  | panic (text : String)
  deriving DecidableEq, Repr

/-- The observable effect of one call of `SendLTVPacket`: what it returned, and its
calls to the codec registry and to `WriteFull`, in order. -/
structure SendRun (V C : Type) where
  outcome : SendOutcome
  events : List (SendEvent V C)
  deriving DecidableEq, Repr

/-- The type of `codec.EncodeMessage(data, ctx)`: the bytes, the meta pointer (`none`
for `nil`) and the error (`none` for `nil`). -/
abbrev Encoder (V C : Type) := V → List Byte × Option (MessageMeta C) × Option Error

/-- The helper `WriteFull(writer, buf)` of package `util` on a given writer: the error
it returns for a buffer (`none` for `nil`). -/
abbrev Writer := List Byte → Option Error

/-- The conversion `byte(v)` of an unsigned integer. -/
def byte (v : Nat) : Byte := ⟨v % 256, Nat.mod_lt v (by decide)⟩

/-- Go's `binary.LittleEndian.PutUint16(b, v)`: the first two bytes of `b` become the
low and the high byte of `v`; `none` is the index-out-of-range panic on a slice shorter
than two bytes. -/
def PutUint16 (b : List Byte) (v : Nat) : Option (List Byte) :=
  match b with
  | _ :: _ :: rest => some (byte v :: byte (v / 256) :: rest)
  | _ => none

/-- The frame that `SendLTVPacket` builds (the lines from `pkt := make(...)` to the
`copy`): a zeroed buffer of `bodySize+msgIDSize+len(msgData)` bytes, the length
`uint16(msgIDSize+len(msgData))` written at offset 0, `uint16(msgID)` written at offset
`bodySize`, and `msgData` copied to offset `bodySize+msgIDSize`. `none` is a panic. -/
def ltvPacket (msgID : Int) (msgData : List Byte) : Option (List Byte) :=
  let pkt0 : List Byte := List.replicate (bodySize + msgIDSize + msgData.length) 0
  match PutUint16 pkt0 (uint16 ((msgIDSize + msgData.length : Nat) : Int)) with
  | none => none
  | some pkt1 =>
    match PutUint16 (pkt1.drop bodySize) (uint16 msgID) with
    | none => none
    | some tail1 =>
      let pkt2 := pkt1.take bodySize ++ tail1
      some (pkt2.take (bodySize + msgIDSize) ++ copy (pkt2.drop (bodySize + msgIDSize)) msgData)

/-- The routine `SendLTVPacket(writer, ctx, data)`, with `codec.EncodeMessage` passed as
`encode` and `WriteFull` on the given writer passed as `writeFull`. -/
def SendLTVPacket {V C : Type} (encode : Encoder V C) (writeFull : Writer)
    (data : SendData V) : SendRun V C :=
  let chosen : Except (SendRun V C)
      (List Byte × Int × Option (MessageMeta C) × List (SendEvent V C)) :=
    match data with
    | .raw m => .ok (m.MsgData, m.MsgID, none, [])
    | .value v =>
      match encode v with
      | (_, _, some err) => .error ⟨.ret (some err), [.encode v]⟩
      | (_, none, none) => .error ⟨.panic "nil pointer dereference", [.encode v]⟩
      | (msgData, some meta, none) => .ok (msgData, meta.ID, some meta, [.encode v])
  match chosen with
  | .error run => run
  | .ok (msgData, msgID, meta, events) =>
    match ltvPacket msgID msgData with
    | none => ⟨.panic "index out of range", events⟩
    | some pkt =>
      let err := writeFull pkt
      match meta with
      | some meta => ⟨.ret err, events ++ [.write pkt, .free meta.Codec msgData]⟩
      | none => ⟨.ret err, events ++ [.write pkt]⟩

/-- A codec registry used to run `SendLTVPacket` on concrete values: only values with
ID 42 are registered, and their codec returns the carried bytes as the encoding. -/
def echoEncoder : Encoder (Nat × List Byte) Unit := fun v =>
  if v.1 = 42 then (v.2, some ⟨42, ()⟩, none)
  else ([], none, some (.codec ⟨"msg not exists"⟩))

/-- A writer on which `WriteFull` succeeds. -/
def okWriter : Writer := fun _ => none

/-- A writer on which `WriteFull` fails. -/
def brokenWriter : Writer := fun _ => some (.transport (.other 32))

/-- A codec registry in which no message ID is registered. -/
def emptyDecoder : Decoder Unit := fun _ _ => (.nil, some (.codec ⟨"msg not exists"⟩))

/-! ## The transmitters (`proc/custom/transmitter.go`) -/

/-- The value that `ses.Raw()` returns: `nil` (closed), a value that is not a
`net.Conn` and that does or does not implement `io.Reader` and `io.Writer`, or a
`net.Conn` (which implements both). `stream` is what reading from the value delivers. -/
inductive RawHandle where
  | nil
  | plain (isReader isWriter : Bool) (stream : Reader)
  | conn (stream : Reader)
  deriving DecidableEq, Repr

/-- A `cellnet.Session` as the transmitters use it: its raw handle, whether `ses.Peer()`
implements `socketOpt` and whether the session implements `cellnet.ContextSet`, and the
value of `opt.MaxPacketSize()`. -/
structure Session where
  Raw : RawHandle
  peerIsSocketOpt : Bool
  isContextSet : Bool
  MaxPacketSize : Int
  deriving DecidableEq, Repr

/-- The type assertion `ses.Raw().(io.Reader)`: the reader, or `none` when `ok` is
false. -/
def RawHandle.asReader : RawHandle → Option Reader
  | .nil => none
  | .plain isReader _ stream => if isReader then some stream else none
  | .conn stream => some stream

/-- The type assertion `ses.Raw().(io.Writer)`: whether `ok` is true. -/
def RawHandle.isWriter : RawHandle → Bool
  | .nil => false
  | .plain _ isWriter _ => isWriter
  | .conn _ => true

/-- Whether the type assertion to `net.Conn` holds. -/
def RawHandle.isConn : RawHandle → Bool
  | .conn _ => true
  | _ => false

/-- The effect of one `OnRecvMessage` call: what it returned, and the protocol read it
performed, if any. -/
structure RecvCall (M : Type) where
  outcome : Outcome M
  packetRead : Option (Run M)
  deriving DecidableEq, Repr

/-- The effect of one `OnSendMessage` call: what it returned, and the buffers it handed
to `WriteFull`. -/
structure SendCall where
  outcome : SendOutcome
  writes : List (List Byte)
  deriving DecidableEq, Repr

/-- Modelled from the spec: the methods `ApplySocketReadTimeout(conn, callback)` and
`ApplySocketWriteTimeout(conn, callback)` of the connection peer, whose code is not
among the sources. The spec has them wrap "the single blocking read or write call in a
deadline-scoped region", with "exactly one protocol operation" per invocation: the
callback runs once. An elapsed deadline shows as the timeout error of the reader. -/
def ApplySocketTimeout {α : Type} (callback : Unit → α) : α := callback ()

/-- The routine `SendMBPacket(writer, ctx, data)`: `WriteFull(writer, data.([]byte))`.
The argument is `some b` for a `[]byte` value and `none` for any other value, on which
the type assertion panics. -/
def SendMBPacket (writeFull : Writer) (data : Option (List Byte)) : SendCall :=
  match data with
  | none => ⟨.panic "interface conversion: interface {} is not []uint8", []⟩
  | some b => ⟨.ret (writeFull b), [b]⟩

/-- The routine `SendTkProxyPacket(writer, ctx, data)`:
`WriteFull(writer, data.([]byte))`. -/
def SendTkProxyPacket (writeFull : Writer) (data : Option (List Byte)) : SendCall :=
  match data with
  | none => ⟨.panic "interface conversion: interface {} is not []uint8", []⟩
  | some b => ⟨.ret (writeFull b), [b]⟩

/-- The method `mbMessageTransmitter.OnRecvMessage(ses)`. -/
def mbMessageTransmitter.OnRecvMessage {M : Type} (ses : Session) : RecvCall M :=
  match ses.Raw.asReader with
  | none => ⟨.ret .nil none, none⟩
  | some reader =>
    if ¬ ses.peerIsSocketOpt then
      ⟨.panic "interface conversion: not socketOpt", none⟩
    else if ses.Raw.isConn then
      ApplySocketTimeout fun _ =>
        let run : Run M := RecvMbPacket reader ses.MaxPacketSize
        ⟨run.outcome, some run⟩
    else ⟨.ret .nil none, none⟩

/-- The method `mbMessageTransmitter.OnSendMessage(ses, msg)`. The type assertion
`writer.(net.Conn)` has no `ok` result: it panics on a writer that is not a `net.Conn`. -/
def mbMessageTransmitter.OnSendMessage (writeFull : Writer) (ses : Session)
    (msg : Option (List Byte)) : SendCall :=
  if ¬ ses.Raw.isWriter then ⟨.ret none, []⟩
  else if ¬ ses.peerIsSocketOpt then
    ⟨.panic "interface conversion: not socketOpt", []⟩
  else if ¬ ses.Raw.isConn then
    ⟨.panic "interface conversion: not net.Conn", []⟩
  else
    ApplySocketTimeout fun _ =>
      if ¬ ses.isContextSet then ⟨.panic "interface conversion: not cellnet.ContextSet", []⟩
      else SendMBPacket writeFull msg

/-- The method `proxyMessageTransmitter.OnRecvMessage(ses)`. -/
def proxyMessageTransmitter.OnRecvMessage {M : Type} (ses : Session) : RecvCall M :=
  match ses.Raw.asReader with
  | none => ⟨.ret .nil none, none⟩
  | some reader =>
    if ¬ ses.peerIsSocketOpt then
      ⟨.panic "interface conversion: not socketOpt", none⟩
    else if ses.Raw.isConn then
      ApplySocketTimeout fun _ =>
        let run : Run M := RecvTkProxyPacket reader ses.MaxPacketSize
        ⟨run.outcome, some run⟩
    else ⟨.ret .nil none, none⟩

/-- The method `proxyMessageTransmitter.OnSendMessage(ses, msg)`. The type assertion
`writer.(net.Conn)` has no `ok` result: it panics on a writer that is not a `net.Conn`. -/
def proxyMessageTransmitter.OnSendMessage (writeFull : Writer) (ses : Session)
    (msg : Option (List Byte)) : SendCall :=
  if ¬ ses.Raw.isWriter then ⟨.ret none, []⟩
  else if ¬ ses.peerIsSocketOpt then
    ⟨.panic "interface conversion: not socketOpt", []⟩
  else if ¬ ses.Raw.isConn then
    ⟨.panic "interface conversion: not net.Conn", []⟩
  else
    ApplySocketTimeout fun _ =>
      if ¬ ses.isContextSet then ⟨.panic "interface conversion: not cellnet.ContextSet", []⟩
      else SendTkProxyPacket writeFull msg

/-! ## The codec registry -/

/-- Modelled from the spec: one entry of the Codec Registry (§4.1, §6), whose code
(package `codec`) is not among the sources. It is what
`Register(type, id, encodeFn, decodeFn)` records: a message type, its numeric ID, and
the encode/decode pair of its codec. -/
structure CodecEntry (T V : Type) where
  msgType : T
  id : Int
  encodeFn : V → Except CodecError (List Byte)
  decodeFn : List Byte → Except CodecError V

/-- Modelled from the spec: the Codec Registry, the entries registered so far. Its code
(package `codec`) is not among the sources. -/
abbrev Registry (T V : Type) := List (CodecEntry T V)

/-- Modelled from the spec: `Register(type, id, encodeFn, decodeFn)` of §6, whose code
is not among the sources; it adds the entry to the registry. -/
def Register {T V : Type} (reg : Registry T V) (msgType : T) (id : Int)
    (encodeFn : V → Except CodecError (List Byte))
    (decodeFn : List Byte → Except CodecError V) : Registry T V :=
  reg ++ [⟨msgType, id, encodeFn, decodeFn⟩]

/-- Modelled from the spec: the invariant of §3 that "a registered message ID is unique
within the Codec Registry". -/
def Registry.UniqueIDs {T V : Type} (reg : Registry T V) : Prop :=
  (reg.map CodecEntry.id).Nodup

/-- Modelled from the spec: `EncodeMessage(value, contextualState)` of §4.1, whose code
is not among the sources. "Encoding resolves the registered codec by the message's
runtime type" (`typeOf m`) and fails "with a codec not found condition when the type is
unregistered"; it returns the payload bytes and the meta (ID and codec reference). -/
def EncodeMessage {T V : Type} [DecidableEq T] (reg : Registry T V) (typeOf : V → T)
    (m : V) : Except CodecError (List Byte × MessageMeta T) :=
  match reg.find? (fun e => decide (e.msgType = typeOf m)) with
  | none => .error ⟨"codec not found"⟩
  | some e =>
    match e.encodeFn m with
    | .error err => .error err
    | .ok data => .ok (data, ⟨e.id, e.msgType⟩)

/-- Modelled from the spec: `DecodeMessage(id, bytes)` of §4.1, whose code is not among
the sources. "Decoding resolves it by numeric ID" and fails "with a codec not found
condition when the ID is unregistered"; it returns the message and the meta. -/
def DecodeMessage {T V : Type} (reg : Registry T V) (id : Int) (data : List Byte) :
    Except CodecError (V × MessageMeta T) :=
  match reg.find? (fun e => decide (e.id = id)) with
  | none => .error ⟨"codec not found"⟩
  | some e =>
    match e.decodeFn data with
    | .error err => .error err
    | .ok m => .ok (m, ⟨e.id, e.msgType⟩)

/-- The test message `ContentACK` of `gogopb_test.go`: a string (as its bytes) and an
`int32`. -/
structure ContentACK where
  Msg : List Byte
  Value : Int
  deriving DecidableEq, Repr

/-- A codec for `ContentACK` used to run the registry on a concrete value: the value as
four little-endian bytes, then the bytes of the string. -/
def contentACKEncode (m : ContentACK) : Except CodecError (List Byte) :=
  .ok (byte (uint32 m.Value) :: byte (uint32 m.Value / 256) :: byte (uint32 m.Value / 65536)
    :: byte (uint32 m.Value / 16777216) :: m.Msg)

/-- The decoder that goes with `contentACKEncode`; the four bytes are read as an
`int32`. -/
def contentACKDecode : List Byte → Except CodecError ContentACK
  | b0 :: b1 :: b2 :: b3 :: rest =>
    .ok ⟨rest, if le32 b0 b1 b2 b3 < 2147483648 then (le32 b0 b1 b2 b3 : Int)
      else (le32 b0 b1 b2 b3 : Int) - 4294967296⟩
  | _ => .error ⟨"short buffer"⟩

/-- A registry with `ContentACK` registered under ID 1. -/
def testRegistry : Registry String ContentACK :=
  Register [] "test.ContentACK" 1 contentACKEncode contentACKDecode

/-- The value of the test: `Value = 67994`, `Msg = "hello"`. -/
def helloACK : ContentACK := ⟨[104, 101, 108, 108, 111], 67994⟩

/-! ## Facts about the library model -/

/-- With the requested bytes at the front of the stream, `ReadFull` returns them and
leaves the rest. -/
theorem ReadFull_front (r : Reader) (a rest : List Byte) (h : r.data = a ++ rest) :
    ReadFull r a.length = (.ok a, { r with data := rest }) := by
  simp [ReadFull, h]

/-- A successful `ReadFull` fills the whole buffer. -/
theorem ReadFull_ok_length (r r1 : Reader) (n : Nat) (buf : List Byte)
    (h : ReadFull r n = (.ok buf, r1)) : buf.length = n := by
  unfold ReadFull at h
  split at h
  · simp only [Prod.mk.injEq, Except.ok.injEq] at h
    rw [← h.1, List.length_take]
    omega
  · simp at h

/-- On a stream too short for the buffer, `ReadFull` fails: with the reader's own
error, or with `ErrUnexpectedEOF` when the stream ends by `EOF` inside the buffer. -/
theorem ReadFull_short (r : Reader) (n : Nat) (h : r.data.length < n) :
    ReadFull r n =
      (.error (if r.data ≠ [] ∧ r.fail = .transport .EOF then .transport .ErrUnexpectedEOF
          else r.fail),
        { r with data := [] }) := by
  simp [ReadFull, Nat.not_le.mpr h]

/-- On positive arguments at most `65535`, `uint16` is the identity. -/
theorem uint16_of_small (x : Int) (h0 : 0 ≤ x) (h1 : x ≤ 65535) : (uint16 x : Int) = x := by
  unfold uint16
  omega

/-- On positive arguments below `2^32`, `uint32` is the identity. -/
theorem uint32_of_small (x : Int) (h0 : 0 ≤ x) (h1 : x < 4294967296) :
    (uint32 x : Int) = x := by
  unfold uint32
  omega

/-- The size check of `RecvLTVPacket` lets a length through when no positive maximum is
set, or when the length is below a maximum of at most `65535`. -/
theorem ltv_size_accepted (size : Nat) (maxPacketSize : Int)
    (hmax : maxPacketSize ≤ 0 ∨ ((size : Int) < maxPacketSize ∧ maxPacketSize ≤ 65535)) :
    ¬ (maxPacketSize > 0 ∧ size ≥ uint16 maxPacketSize) := by
  rintro ⟨hpos, hge⟩
  rcases hmax with h | ⟨h1, h2⟩
  · omega
  · have := uint16_of_small maxPacketSize (by omega) h2
    omega

/-! ## The LTV protocol -/

/-- C1: on a stream that starts with a little-endian length `L = 2 + len(payload)`, two
ID bytes and the payload, with the length accepted by the size check (no positive
maximum, or `L < maxPacketSize ≤ 65535`), `RecvLTVPacket` consumes exactly the `2 + L`
bytes of the frame, calls `DecodeMessage` once with the little-endian ID and the
payload, and returns what that call returns: the message with a nil error, or a nil
message with the decode error. -/
theorem RecvLTVPacket_frame {M : Type} (decode : Decoder M) (r : Reader)
    (maxPacketSize : Int) (l0 l1 i0 i1 : Byte) (payload rest : List Byte)
    (hdata : r.data = l0 :: l1 :: i0 :: i1 :: (payload ++ rest))
    (hlen : l0.val + 256 * l1.val = 2 + payload.length)
    (hmax : maxPacketSize ≤ 0 ∨
      (((2 + payload.length : Nat) : Int) < maxPacketSize ∧ maxPacketSize ≤ 65535)) :
    (RecvLTVPacket decode r maxPacketSize).reader = { r with data := rest } ∧
    (RecvLTVPacket decode r maxPacketSize).decodeCalls = [(i0.val + 256 * i1.val, payload)] ∧
    (∀ msg, decode (i0.val + 256 * i1.val) payload = (msg, none) →
      (RecvLTVPacket decode r maxPacketSize).outcome = .ret msg none) ∧
    (∀ msg e, decode (i0.val + 256 * i1.val) payload = (msg, some e) →
      (RecvLTVPacket decode r maxPacketSize).outcome = .ret .nil (some e)) := by
  have h1 : ReadFull r bodySize
      = (.ok [l0, l1], { r with data := i0 :: i1 :: (payload ++ rest) }) :=
    ReadFull_front r [l0, l1] _ (by simpa using hdata)
  have h2 : ReadFull { r with data := i0 :: i1 :: (payload ++ rest) } (l0.val + 256 * l1.val)
      = (.ok (i0 :: i1 :: payload), { r with data := rest }) := by
    have := ReadFull_front { r with data := i0 :: i1 :: (payload ++ rest) }
      (i0 :: i1 :: payload) rest (by simp)
    have hl : (i0 :: i1 :: payload).length = l0.val + 256 * l1.val := by
      rw [hlen, List.length_cons, List.length_cons]
      omega
    rw [← hl]
    exact this
  have h3 := ltv_size_accepted (l0.val + 256 * l1.val) maxPacketSize (by rw [hlen]; exact hmax)
  have hrun : RecvLTVPacket decode r maxPacketSize =
      match decode (i0.val + 256 * i1.val) payload with
      | (_, some e) =>
        ⟨.ret .nil (some e), { r with data := rest }, [(i0.val + 256 * i1.val, payload)]⟩
      | (msg, none) =>
        ⟨.ret msg none, { r with data := rest }, [(i0.val + 256 * i1.val, payload)]⟩ := by
    unfold RecvLTVPacket
    simp only [h1]
    simp only [Uint16, bodySize, List.length_cons, List.length_nil, Nat.lt_irrefl, if_false]
    rw [if_neg h3]
    simp only [h2]
    simp [msgIDSize]
  rw [hrun]
  rcases hd : decode (i0.val + 256 * i1.val) payload with ⟨msg, _ | e⟩ <;> simp

/-- C1, run on the frame `04 00 2A 00 FF 07` followed by one more byte, under a
maximum of 5. -/
theorem RecvLTVPacket_frame_witness :
    (RecvLTVPacket echoDecoder ⟨[4, 0, 42, 0, 255, 7, 9], .transport .EOF⟩
        5).reader = ⟨[9], .transport .EOF⟩ ∧
    (RecvLTVPacket echoDecoder ⟨[4, 0, 42, 0, 255, 7, 9], .transport .EOF⟩ 5).decodeCalls
      = [(42, [255, 7])] ∧
    (RecvLTVPacket echoDecoder ⟨[4, 0, 42, 0, 255, 7, 9], .transport .EOF⟩ 5).outcome
      = .ret (.user (42, [255, 7])) none := by
  have h := RecvLTVPacket_frame echoDecoder ⟨[4, 0, 42, 0, 255, 7, 9], .transport .EOF⟩ 5 4 0 42 0
    [255, 7] [9] rfl (by decide) (Or.inr (by decide))
  exact ⟨h.1, h.2.1, h.2.2.1 _ rfl⟩

/-- Copying a header over a buffer whose head has the header's length leaves the tail
of the buffer in place. -/
theorem copy_head (head hdr body : List Byte) (h : head.length = hdr.length) :
    copy (head ++ body) hdr = hdr ++ body := by
  unfold copy
  rw [List.take_of_length_le (by rw [List.length_append]; omega), ← h, List.drop_left]

/-! ## Reading a fixed-size header that ends in a 4-byte length -/

/-- A stream that starts with `pre`, four length bytes and `rest` yields the header
`pre ++ [b0, b1, b2, b3]` and leaves `rest`. -/
theorem ReadFull_header (r : Reader) (pre rest : List Byte) (b0 b1 b2 b3 : Byte)
    (hdata : r.data = pre ++ b0 :: b1 :: b2 :: b3 :: rest) :
    ReadFull r (pre.length + 4) = (.ok (pre ++ [b0, b1, b2, b3]), { r with data := rest }) := by
  have := ReadFull_front r (pre ++ [b0, b1, b2, b3]) rest (by simp [hdata])
  simpa using this

/-- The length field read back from a header `pre ++ [b0, b1, b2, b3]` at offset
`len(pre)`. -/
theorem readUint32At_header (pre : List Byte) (b0 b1 b2 b3 : Byte) :
    readUint32At (pre ++ [b0, b1, b2, b3]) pre.length = some (le32 b0 b1 b2 b3) := by
  simp [readUint32At]

/-- A little-endian `uint32` is below `2^32`. -/
theorem le32_lt (b0 b1 b2 b3 : Byte) : le32 b0 b1 b2 b3 < 4294967296 := by
  unfold le32
  omega

/-- A declared length of at least a positive maximum fails the `uint32` size check. -/
theorem size32_rejected (n : Nat) (maxPacketSize : Int) (hn : n < 4294967296)
    (hpos : 0 < maxPacketSize) (hge : maxPacketSize ≤ (n : Int)) :
    maxPacketSize > 0 ∧ n ≥ uint32 maxPacketSize := by
  have := uint32_of_small maxPacketSize (by omega) (by omega)
  exact ⟨hpos, by omega⟩

/-- The `uint32` size check lets a length through when no positive maximum is set, or
when the length is below a maximum that is itself below `2^32`. -/
theorem size32_accepted (n : Nat) (maxPacketSize : Int)
    (hmax : maxPacketSize ≤ 0 ∨ ((n : Int) < maxPacketSize ∧ maxPacketSize < 4294967296)) :
    ¬ (maxPacketSize > 0 ∧ n ≥ uint32 maxPacketSize) := by
  rintro ⟨hpos, hge⟩
  rcases hmax with h | ⟨h1, h2⟩
  · omega
  · have := uint32_of_small maxPacketSize (by omega) h2
    omega

/-! ## Oversize frames -/

/-- C2: with a positive maximum and a fully read header that declares a body length of
at least that maximum, each of `RecvLTVPacket`, `RecvMbPacket` and `RecvTkProxyPacket`
returns a nil message with `ErrMaxPacket`, leaves the stream right after the header
(2, 8 and 24 bytes) and makes no decode call. -/
theorem oversize_rejected_after_header :
    (∀ (M : Type) (decode : Decoder M) (r : Reader) (maxPacketSize : Int) (l0 l1 : Byte)
        (rest : List Byte),
        r.data = l0 :: l1 :: rest → 0 < maxPacketSize →
        maxPacketSize ≤ ((l0.val + 256 * l1.val : Nat) : Int) →
        RecvLTVPacket decode r maxPacketSize
          = ⟨.ret .nil (some .ErrMaxPacket), { r with data := rest }, []⟩) ∧
    (∀ (M : Type) (r : Reader) (maxPacketSize : Int) (pre rest : List Byte)
        (b0 b1 b2 b3 : Byte),
        r.data = pre ++ b0 :: b1 :: b2 :: b3 :: rest → pre.length = 4 → 0 < maxPacketSize →
        maxPacketSize ≤ (le32 b0 b1 b2 b3 : Int) →
        (RecvMbPacket r maxPacketSize : Run M)
          = ⟨.ret .nil (some .ErrMaxPacket), { r with data := rest }, []⟩) ∧
    (∀ (M : Type) (r : Reader) (maxPacketSize : Int) (pre rest : List Byte)
        (b0 b1 b2 b3 : Byte),
        r.data = pre ++ b0 :: b1 :: b2 :: b3 :: rest → pre.length = 20 → 0 < maxPacketSize →
        maxPacketSize ≤ (le32 b0 b1 b2 b3 : Int) →
        (RecvTkProxyPacket r maxPacketSize : Run M)
          = ⟨.ret .nil (some .ErrMaxPacket), { r with data := rest }, []⟩) := by
  refine ⟨?_, ?_, ?_⟩
  · intro M decode r maxPacketSize l0 l1 rest hdata hpos hge
    have h1 : ReadFull r bodySize = (.ok [l0, l1], { r with data := rest }) :=
      ReadFull_front r [l0, l1] _ (by simpa using hdata)
    have h3 : maxPacketSize > 0 ∧ l0.val + 256 * l1.val ≥ uint16 maxPacketSize := by
      have := uint16_of_small maxPacketSize (by omega) (by omega)
      exact ⟨hpos, by omega⟩
    unfold RecvLTVPacket
    simp only [h1]
    simp only [Uint16, bodySize, List.length_cons, List.length_nil, Nat.lt_irrefl, if_false]
    rw [if_pos h3]
  · intro M r maxPacketSize pre rest b0 b1 b2 b3 hdata hpre hpos hge
    have h1 := ReadFull_header r pre rest b0 b1 b2 b3 hdata
    have h2 := readUint32At_header pre b0 b1 b2 b3
    rw [hpre] at h1 h2
    have h3 := size32_rejected _ maxPacketSize (le32_lt b0 b1 b2 b3) hpos hge
    unfold RecvMbPacket
    simp only [mbHeaderSize, mbHeaderBodyLenPos, h1, h2]
    rw [if_neg (by simp [hpre]), if_pos h3]
  · intro M r maxPacketSize pre rest b0 b1 b2 b3 hdata hpre hpos hge
    have h1 := ReadFull_header r pre rest b0 b1 b2 b3 hdata
    have h2 := readUint32At_header pre b0 b1 b2 b3
    rw [hpre] at h1 h2
    have h3 := size32_rejected _ maxPacketSize (le32_lt b0 b1 b2 b3) hpos hge
    unfold RecvTkProxyPacket
    simp only [tkProxyHeaderSize, tkPorxyHeaderBodyLenPos, h1, h2]
    rw [if_neg (by simp [hpre]), if_pos h3]

/-- C2, run on three streams whose headers declare 5, 16 and 300 bytes under maxima of
5, 16 and 256. -/
theorem oversize_rejected_after_header_witness :
    RecvLTVPacket echoDecoder ⟨[5, 0, 1, 2, 3, 4, 5], .transport .EOF⟩ 5
      = ⟨.ret .nil (some .ErrMaxPacket), ⟨[1, 2, 3, 4, 5], .transport .EOF⟩, []⟩ ∧
    (RecvMbPacket ⟨[1, 2, 3, 4, 16, 0, 0, 0, 9, 9], .transport .EOF⟩ 16 : Run Unit)
      = ⟨.ret .nil (some .ErrMaxPacket), ⟨[9, 9], .transport .EOF⟩, []⟩ ∧
    (RecvTkProxyPacket ⟨List.replicate 20 7 ++ [44, 1, 0, 0, 9], .transport (.other 3)⟩ 256
        : Run Unit)
      = ⟨.ret .nil (some .ErrMaxPacket), ⟨[9], .transport (.other 3)⟩, []⟩ :=
  ⟨oversize_rejected_after_header.1 _ echoDecoder ⟨[5, 0, 1, 2, 3, 4, 5], .transport .EOF⟩ 5 5 0
      [1, 2, 3, 4, 5] rfl (by decide) (by decide),
    oversize_rejected_after_header.2.1 Unit ⟨[1, 2, 3, 4, 16, 0, 0, 0, 9, 9], .transport .EOF⟩ 16
      [1, 2, 3, 4] [9, 9] 16 0 0 0 rfl rfl (by decide) (by decide),
    oversize_rejected_after_header.2.2 Unit ⟨List.replicate 20 7 ++ [44, 1, 0, 0, 9], .transport (.other 3)⟩
      256 (List.replicate 20 7) [9] 44 1 0 0 rfl rfl (by decide) (by decide)⟩

/-! ## The mobile protocol -/

/-- C3: on a stream that starts with an 8-byte header whose bytes 4..7 spell the
little-endian length `bodyLen ≥ 2`, followed by `bodyLen` body bytes, with the length
accepted by the size check (no positive maximum, or `bodyLen < maxPacketSize < 2^32`),
`RecvMbPacket` returns `MBMsgRecv` holding the header bytes and the body bytes as they
came, with a nil error, consumes exactly `8 + bodyLen` bytes, and makes no decode
call. -/
theorem RecvMbPacket_frame {M : Type} (r : Reader) (maxPacketSize : Int)
    (pre body rest : List Byte) (b0 b1 b2 b3 : Byte)
    (hdata : r.data = pre ++ b0 :: b1 :: b2 :: b3 :: (body ++ rest))
    (hpre : pre.length = 4)
    (hlen : body.length = le32 b0 b1 b2 b3)
    (hbody : 2 ≤ body.length)
    (hmax : maxPacketSize ≤ 0 ∨
      ((body.length : Int) < maxPacketSize ∧ maxPacketSize < 4294967296)) :
    (RecvMbPacket r maxPacketSize : Run M)
      = ⟨.ret (.mb { Header := some (pre ++ [b0, b1, b2, b3]), Data := some body }) none,
          { r with data := rest }, []⟩ := by
  have h1 := ReadFull_header r pre (body ++ rest) b0 b1 b2 b3 hdata
  have h2 := readUint32At_header pre b0 b1 b2 b3
  rw [hpre] at h1 h2
  have h3 := size32_accepted (le32 b0 b1 b2 b3) maxPacketSize (by rw [← hlen]; exact hmax)
  have h4 : ReadFull { r with data := body ++ rest } (le32 b0 b1 b2 b3)
      = (.ok body, { r with data := rest }) := by
    rw [← hlen]
    exact ReadFull_front { r with data := body ++ rest } body rest rfl
  have h5 : ¬ le32 b0 b1 b2 b3 = 0 := by omega
  unfold RecvMbPacket
  simp only [mbHeaderSize, mbHeaderBodyLenPos, h1, h2]
  rw [if_neg (by simp [hpre]), if_neg h3, if_neg h5]
  simp only [h4]
  rw [if_neg (by simp only [msgIDSize]; omega)]

/-- C3, run on a frame with a 3-byte body under a maximum of 4. -/
theorem RecvMbPacket_frame_witness :
    (RecvMbPacket ⟨[1, 2, 3, 4, 3, 0, 0, 0, 10, 11, 12, 99], .transport .EOF⟩ 4 : Run Unit)
      = ⟨.ret (.mb { Header := some [1, 2, 3, 4, 3, 0, 0, 0], Data := some [10, 11, 12] }) none,
          ⟨[99], .transport .EOF⟩, []⟩ :=
  RecvMbPacket_frame ⟨[1, 2, 3, 4, 3, 0, 0, 0, 10, 11, 12, 99], .transport .EOF⟩ 4 [1, 2, 3, 4]
    [10, 11, 12] [99] 3 0 0 0 rfl rfl (by decide) (by decide) (Or.inr (by decide))

/-! ## The proxy protocol -/

/-- On a stream that starts with a 24-byte header whose bytes 20..23 spell the
little-endian length `bodyLen` with `0 < bodyLen < 2^32 - 24`, followed by `bodyLen`
body bytes, with the length accepted by the size check, `RecvTkProxyPacket` returns
`ConServerMsgRecv` whose data is the header followed by the body, with error number 0
and a nil error, and consumes exactly `24 + bodyLen` bytes. -/
theorem RecvTkProxyPacket_frame {M : Type} (r : Reader) (maxPacketSize : Int)
    (pre body rest : List Byte) (b0 b1 b2 b3 : Byte)
    (hdata : r.data = pre ++ b0 :: b1 :: b2 :: b3 :: (body ++ rest))
    (hpre : pre.length = 20)
    (hlen : body.length = le32 b0 b1 b2 b3)
    (hbody : 0 < body.length)
    (hfit : 24 + body.length < 4294967296)
    (hacc : ¬ (maxPacketSize > 0 ∧ body.length ≥ uint32 maxPacketSize)) :
    (RecvTkProxyPacket r maxPacketSize : Run M)
      = ⟨.ret (.conServer { Data := some (pre ++ [b0, b1, b2, b3] ++ body), ErrNo := 0 }) none,
          { r with data := rest }, []⟩ := by
  have h1 := ReadFull_header r pre (body ++ rest) b0 b1 b2 b3 hdata
  have h2 := readUint32At_header pre b0 b1 b2 b3
  rw [hpre] at h1 h2
  rw [hlen] at hacc hbody hfit
  have h4 : ReadFull { r with data := body ++ rest } (le32 b0 b1 b2 b3)
      = (.ok body, { r with data := rest }) := by
    rw [← hlen]
    exact ReadFull_front { r with data := body ++ rest } body rest rfl
  have h5 : ¬ le32 b0 b1 b2 b3 = 0 := by omega
  have h6 : (24 + le32 b0 b1 b2 b3) % 4294967296 = 24 + le32 b0 b1 b2 b3 :=
    Nat.mod_eq_of_lt hfit
  unfold RecvTkProxyPacket
  simp only [tkProxyHeaderSize, tkPorxyHeaderBodyLenPos, h1, h2]
  rw [if_neg (by simp [hpre]), if_neg hacc, if_neg h5]
  simp only [h6, List.length_replicate]
  rw [if_neg (by omega)]
  simp only [Nat.add_sub_cancel_left, h4]
  rw [copy_head _ _ _ (by simp [hpre])]

/-- C4, at the failing input: with no maximum configured and a header that declares a
body of `2^32 - 1` bytes, the buffer length `24 + bodyLen` wraps to 23 and the slice
expression `data[24:]` panics, whatever follows the header on the stream; no message
is returned. -/
theorem RecvTkProxyPacket_wraps (rest : List Byte) :
    (RecvTkProxyPacket ⟨List.replicate 20 0 ++ [255, 255, 255, 255] ++ rest, .transport .EOF⟩ 0
        : Run Unit)
      = ⟨.panic "slice bounds out of range", ⟨rest, .transport .EOF⟩, []⟩ := by
  have h1 := ReadFull_header ⟨List.replicate 20 0 ++ [255, 255, 255, 255] ++ rest, .transport .EOF⟩
    (List.replicate 20 0) rest 255 255 255 255 (by simp)
  have h2 := readUint32At_header (List.replicate 20 0) 255 255 255 255
  have h3 : le32 255 255 255 255 = 4294967295 := by decide
  rw [h3] at h2
  simp only [List.length_replicate] at h1 h2
  unfold RecvTkProxyPacket
  simp only [tkProxyHeaderSize, tkPorxyHeaderBodyLenPos, h1, h2]
  simp

/-- C5: `RecvTkProxyPacket` returns the timeout sentinel (`ConServerMsgRecv` with nil
data and error number 1) with a nil error exactly when reading the 24-byte header fails
with a `net.Error` whose `Timeout()` is true; when the header read fails with any other
error `e`, it returns a nil message and `e` itself. -/
theorem RecvTkProxyPacket_header_failure {M : Type} (r : Reader) (maxPacketSize : Int) :
    ((RecvTkProxyPacket r maxPacketSize : Run M).outcome
        = .ret (.conServer { Data := none, ErrNo := 1 }) none ↔
      ∃ code, (ReadFull r tkProxyHeaderSize).1 = .error (.transport (.net code true))) ∧
    (∀ e, (ReadFull r tkProxyHeaderSize).1 = .error e →
      (∀ code, e ≠ .transport (.net code true)) →
      (RecvTkProxyPacket r maxPacketSize : Run M).outcome = .ret .nil (some e)) := by
  rcases hrf : ReadFull r tkProxyHeaderSize with ⟨res, r1⟩
  constructor
  · cases res with
    | error e =>
      cases e with
      | transport t =>
        cases t with
        | net code timeout =>
          cases timeout <;> simp [RecvTkProxyPacket, hrf, serverMsgErrorTimeOut]
        | _ => simp [RecvTkProxyPacket, hrf]
      | _ => simp [RecvTkProxyPacket, hrf]
    | ok header =>
      unfold RecvTkProxyPacket
      simp only [hrf]
      constructor
      · intro h
        exfalso
        revert h
        repeat' split
        all_goals simp
      · rintro ⟨code, hc⟩
        simp at hc
  · intro e he hne
    simp only at he
    subst he
    cases e with
    | transport t =>
      cases t with
      | net code timeout =>
        cases timeout
        · simp [RecvTkProxyPacket, hrf]
        · exact absurd rfl (hne code)
      | _ => simp [RecvTkProxyPacket, hrf]
    | _ => simp [RecvTkProxyPacket, hrf]

/-- C5, run on a stream that times out after three header bytes, and on one that ends
after three header bytes. -/
theorem RecvTkProxyPacket_header_failure_witness :
    (RecvTkProxyPacket ⟨[1, 2, 3], .transport (.net 110 true)⟩ 0 : Run Unit).outcome
      = .ret (.conServer { Data := none, ErrNo := 1 }) none ∧
    (RecvTkProxyPacket ⟨[1, 2, 3], .transport .EOF⟩ 0 : Run Unit).outcome
      = .ret .nil (some (.transport .ErrUnexpectedEOF)) :=
  ⟨(RecvTkProxyPacket_header_failure ⟨[1, 2, 3], .transport (.net 110 true)⟩ 0).1.2 ⟨110, rfl⟩,
    (RecvTkProxyPacket_header_failure ⟨[1, 2, 3], .transport .EOF⟩ 0).2
      (.transport .ErrUnexpectedEOF) rfl (fun code h => by cases h)⟩

/-! ## Header-only frames -/

/-- A fully read header that declares body length 0 and passes the size check gives a
header-only message with a nil error, in both `RecvMbPacket` and `RecvTkProxyPacket`;
the stream is left right after the header. The size check rejects length 0 exactly
when `maxPacketSize` is a positive multiple of `2^32`. -/
theorem header_only_frame :
    (∀ (M : Type) (r : Reader) (maxPacketSize : Int) (pre rest : List Byte),
        r.data = pre ++ 0 :: 0 :: 0 :: 0 :: rest → pre.length = 4 →
        ¬ (0 < maxPacketSize ∧ maxPacketSize % 4294967296 = 0) →
        (RecvMbPacket r maxPacketSize : Run M)
          = ⟨.ret (.mb { Header := some (pre ++ [0, 0, 0, 0]), Data := none }) none,
              { r with data := rest }, []⟩) ∧
    (∀ (M : Type) (r : Reader) (maxPacketSize : Int) (pre rest : List Byte),
        r.data = pre ++ 0 :: 0 :: 0 :: 0 :: rest → pre.length = 20 →
        ¬ (0 < maxPacketSize ∧ maxPacketSize % 4294967296 = 0) →
        (RecvTkProxyPacket r maxPacketSize : Run M)
          = ⟨.ret (.conServer { Data := some (pre ++ [0, 0, 0, 0]), ErrNo := 0 }) none,
              { r with data := rest }, []⟩) := by
  have hz : le32 0 0 0 0 = 0 := by decide
  have hchk : ∀ maxPacketSize : Int, ¬ (0 < maxPacketSize ∧ maxPacketSize % 4294967296 = 0) →
      ¬ (maxPacketSize > 0 ∧ 0 ≥ uint32 maxPacketSize) := by
    intro m hm ⟨hpos, hge⟩
    apply hm
    unfold uint32 at hge
    omega
  refine ⟨?_, ?_⟩
  · intro M r maxPacketSize pre rest hdata hpre hmax
    have h1 := ReadFull_header r pre rest 0 0 0 0 hdata
    have h2 := readUint32At_header pre 0 0 0 0
    rw [hpre] at h1 h2
    rw [hz] at h2
    unfold RecvMbPacket
    simp only [mbHeaderSize, mbHeaderBodyLenPos, h1, h2]
    rw [if_neg (by simp [hpre]), if_neg (hchk _ hmax), if_pos trivial]
  · intro M r maxPacketSize pre rest hdata hpre hmax
    have h1 := ReadFull_header r pre rest 0 0 0 0 hdata
    have h2 := readUint32At_header pre 0 0 0 0
    rw [hpre] at h1 h2
    rw [hz] at h2
    unfold RecvTkProxyPacket
    simp only [tkProxyHeaderSize, tkPorxyHeaderBodyLenPos, h1, h2]
    rw [if_neg (by simp [hpre]), if_neg (hchk _ hmax), if_pos trivial]

/-- C6, at the failing input: with `maxPacketSize = 2^32` the conversion
`uint32(maxPacketSize)` is 0, so a header that declares body length 0 is rejected with
`ErrMaxPacket` by `RecvMbPacket` and by `RecvTkProxyPacket`; no header-only message is
returned. -/
theorem zero_length_rejected_at_two_pow_32 :
    (RecvMbPacket ⟨[1, 2, 3, 4, 0, 0, 0, 0], .transport .EOF⟩ 4294967296 : Run Unit)
      = ⟨.ret .nil (some .ErrMaxPacket), ⟨[], .transport .EOF⟩, []⟩ ∧
    (RecvTkProxyPacket ⟨List.replicate 20 7 ++ [0, 0, 0, 0], .transport .EOF⟩ 4294967296 : Run Unit)
      = ⟨.ret .nil (some .ErrMaxPacket), ⟨[], .transport .EOF⟩, []⟩ := by
  constructor <;> decide

/-! ## Bodies too short for a message ID -/

/-- `RecvLTVPacket` on a frame that declares a body of 0 or 1 bytes, with those bytes
on the stream and the length not rejected by the size check. -/
theorem RecvLTVPacket_short_body {M : Type} (decode : Decoder M) (r : Reader)
    (maxPacketSize : Int) (l0 l1 : Byte) (body rest : List Byte)
    (hdata : r.data = l0 :: l1 :: (body ++ rest))
    (hlen : body.length = l0.val + 256 * l1.val)
    (hshort : body.length < 2)
    (hacc : ¬ (maxPacketSize > 0 ∧ l0.val + 256 * l1.val ≥ uint16 maxPacketSize)) :
    RecvLTVPacket decode r maxPacketSize
      = ⟨.ret .nil (some .ErrShortMsgID), { r with data := rest }, []⟩ := by
  have h1 : ReadFull r bodySize = (.ok [l0, l1], { r with data := body ++ rest }) :=
    ReadFull_front r [l0, l1] _ (by simpa using hdata)
  have h2 : ReadFull { r with data := body ++ rest } (l0.val + 256 * l1.val)
      = (.ok body, { r with data := rest }) := by
    rw [← hlen]
    exact ReadFull_front { r with data := body ++ rest } body rest rfl
  unfold RecvLTVPacket
  simp only [h1]
  simp only [Uint16, bodySize, List.length_cons, List.length_nil, Nat.lt_irrefl, if_false]
  rw [if_neg hacc]
  simp only [h2]
  rw [if_pos (by simp only [msgIDSize]; exact hshort)]

/-- `RecvMbPacket` on a frame that declares a body of 1 byte, with that byte on the
stream and the length not rejected by the size check. -/
theorem RecvMbPacket_short_body {M : Type} (r : Reader) (maxPacketSize : Int)
    (pre rest : List Byte) (b : Byte)
    (hdata : r.data = pre ++ 1 :: 0 :: 0 :: 0 :: b :: rest)
    (hpre : pre.length = 4)
    (hacc : ¬ (maxPacketSize > 0 ∧ 1 ≥ uint32 maxPacketSize)) :
    (RecvMbPacket r maxPacketSize : Run M)
      = ⟨.ret .nil (some .ErrShortMsgID), { r with data := rest }, []⟩ := by
  have h1 := ReadFull_header r pre (b :: rest) 1 0 0 0 hdata
  have h2 := readUint32At_header pre 1 0 0 0
  have hz : le32 1 0 0 0 = 1 := by decide
  rw [hpre] at h1 h2
  rw [hz] at h2
  have h4 : ReadFull { r with data := b :: rest } 1 = (.ok [b], { r with data := rest }) :=
    ReadFull_front { r with data := b :: rest } [b] rest rfl
  unfold RecvMbPacket
  simp only [mbHeaderSize, mbHeaderBodyLenPos, h1, h2]
  rw [if_neg (by simp [hpre]), if_neg hacc, if_neg (by decide)]
  simp only [h4]
  rw [if_pos (by simp [msgIDSize])]

/-- C7: a body too short for a message ID is rejected before decode. `RecvLTVPacket`
on a frame declaring body length 0 or 1, and `RecvMbPacket` on a frame declaring body
length 1, with the declared bytes on the stream and the length not rejected by the size
check, return a nil message with `ErrShortMsgID` after consuming the frame, and
`RecvLTVPacket` makes no call to `DecodeMessage`. -/
theorem short_body_rejected :
    (∀ (M : Type) (decode : Decoder M) (r : Reader) (maxPacketSize : Int) (l0 l1 : Byte)
        (body rest : List Byte),
        r.data = l0 :: l1 :: (body ++ rest) → body.length = l0.val + 256 * l1.val →
        body.length < 2 →
        ¬ (maxPacketSize > 0 ∧ l0.val + 256 * l1.val ≥ uint16 maxPacketSize) →
        (RecvLTVPacket decode r maxPacketSize).outcome = .ret .nil (some .ErrShortMsgID) ∧
        (RecvLTVPacket decode r maxPacketSize).decodeCalls = [] ∧
        (RecvLTVPacket decode r maxPacketSize).reader = { r with data := rest }) ∧
    (∀ (M : Type) (r : Reader) (maxPacketSize : Int) (pre rest : List Byte) (b : Byte),
        r.data = pre ++ 1 :: 0 :: 0 :: 0 :: b :: rest → pre.length = 4 →
        ¬ (maxPacketSize > 0 ∧ 1 ≥ uint32 maxPacketSize) →
        (RecvMbPacket r maxPacketSize : Run M).outcome = .ret .nil (some .ErrShortMsgID) ∧
        (RecvMbPacket r maxPacketSize : Run M).reader = { r with data := rest }) := by
  refine ⟨?_, ?_⟩
  · intro M decode r maxPacketSize l0 l1 body rest hdata hlen hshort hacc
    rw [RecvLTVPacket_short_body decode r maxPacketSize l0 l1 body rest hdata hlen hshort hacc]
    exact ⟨rfl, rfl, rfl⟩
  · intro M r maxPacketSize pre rest b hdata hpre hacc
    rw [RecvMbPacket_short_body r maxPacketSize pre rest b hdata hpre hacc]
    exact ⟨rfl, rfl⟩

/-- C7, run on LTV frames declaring 0 and 1 body bytes and on a mobile frame declaring
1 body byte. -/
theorem short_body_rejected_witness :
    (RecvLTVPacket echoDecoder ⟨[0, 0, 42, 0], .transport .EOF⟩ 0).outcome
      = .ret .nil (some .ErrShortMsgID) ∧
    (RecvLTVPacket echoDecoder ⟨[0, 0, 42, 0], .transport .EOF⟩ 0).decodeCalls = [] ∧
    (RecvLTVPacket echoDecoder ⟨[1, 0, 42, 0], .transport .EOF⟩ 9).outcome
      = .ret .nil (some .ErrShortMsgID) ∧
    (RecvLTVPacket echoDecoder ⟨[1, 0, 42, 0], .transport .EOF⟩ 9).decodeCalls = [] ∧
    (RecvMbPacket ⟨[1, 2, 3, 4, 1, 0, 0, 0, 42, 0], .transport .EOF⟩ 9 : Run Unit).outcome
      = .ret .nil (some .ErrShortMsgID) := by
  have h0 := short_body_rejected.1 _ echoDecoder ⟨[0, 0, 42, 0], .transport .EOF⟩ 0 0 0 [] [42, 0]
    rfl rfl (by decide) (by decide)
  have h1 := short_body_rejected.1 _ echoDecoder ⟨[1, 0, 42, 0], .transport .EOF⟩ 9 1 0 [42] [0]
    rfl rfl (by decide) (by decide)
  have h2 := short_body_rejected.2 Unit ⟨[1, 2, 3, 4, 1, 0, 0, 0, 42, 0], .transport .EOF⟩ 9
    [1, 2, 3, 4] [0] 42 rfl rfl (by decide)
  exact ⟨h0.1, h0.2.1, h1.1, h1.2.1, h2.1⟩

/-- C8, counterexample: on a 24-byte header that declares body length 1, followed by
one byte, with no maximum configured, `RecvTkProxyPacket` returns a message with a nil
error; it does not return `ErrShortMsgID`. -/
theorem RecvTkProxyPacket_one_byte_body_accepted :
    (RecvTkProxyPacket ⟨List.replicate 20 7 ++ [1, 0, 0, 0, 42], .transport .EOF⟩ 0
        : Run Unit).outcome
      = .ret (.conServer { Data := some (List.replicate 20 7 ++ [1, 0, 0, 0, 42]), ErrNo := 0 })
          none ∧
    ¬ ∃ msg, (RecvTkProxyPacket ⟨List.replicate 20 7 ++ [1, 0, 0, 0, 42], .transport .EOF⟩ 0
        : Run Unit).outcome = .ret msg (some .ErrShortMsgID) := by
  constructor
  · decide
  · rintro ⟨msg, h⟩
    have h2 : (RecvTkProxyPacket ⟨List.replicate 20 7 ++ [1, 0, 0, 0, 42], .transport .EOF⟩ 0
        : Run Unit).outcome
        = .ret (.conServer { Data := some (List.replicate 20 7 ++ [1, 0, 0, 0, 42]), ErrNo := 0 })
          none := by decide
    rw [h2] at h
    cases h

/-- C8, amended: the minimum body length of 2 bytes is enforced by the LTV and the
mobile protocol only. `RecvLTVPacket` on a frame declaring body length 0 or 1 and
`RecvMbPacket` on a frame declaring body length 1 return a nil message with
`ErrShortMsgID`; `RecvTkProxyPacket` has no minimum: on a 24-byte header declaring body
length 1, followed by one byte and not rejected by the size check, it returns
`ConServerMsgRecv` whose data is the header followed by that byte, with error number 0
and a nil error. -/
theorem short_body_by_protocol :
    (∀ (M : Type) (decode : Decoder M) (r : Reader) (maxPacketSize : Int) (l0 l1 : Byte)
        (body rest : List Byte),
        r.data = l0 :: l1 :: (body ++ rest) → body.length = l0.val + 256 * l1.val →
        body.length < 2 →
        ¬ (maxPacketSize > 0 ∧ l0.val + 256 * l1.val ≥ uint16 maxPacketSize) →
        (RecvLTVPacket decode r maxPacketSize).outcome = .ret .nil (some .ErrShortMsgID)) ∧
    (∀ (M : Type) (r : Reader) (maxPacketSize : Int) (pre rest : List Byte) (b : Byte),
        r.data = pre ++ 1 :: 0 :: 0 :: 0 :: b :: rest → pre.length = 4 →
        ¬ (maxPacketSize > 0 ∧ 1 ≥ uint32 maxPacketSize) →
        (RecvMbPacket r maxPacketSize : Run M).outcome = .ret .nil (some .ErrShortMsgID)) ∧
    (∀ (M : Type) (r : Reader) (maxPacketSize : Int) (pre rest : List Byte) (b : Byte),
        r.data = pre ++ 1 :: 0 :: 0 :: 0 :: b :: rest → pre.length = 20 →
        ¬ (maxPacketSize > 0 ∧ 1 ≥ uint32 maxPacketSize) →
        (RecvTkProxyPacket r maxPacketSize : Run M)
          = ⟨.ret (.conServer { Data := some (pre ++ [1, 0, 0, 0] ++ [b]), ErrNo := 0 }) none,
              { r with data := rest }, []⟩) := by
  refine ⟨?_, ?_, ?_⟩
  · intro M decode r maxPacketSize l0 l1 body rest hdata hlen hshort hacc
    rw [RecvLTVPacket_short_body decode r maxPacketSize l0 l1 body rest hdata hlen hshort hacc]
  · intro M r maxPacketSize pre rest b hdata hpre hacc
    rw [RecvMbPacket_short_body r maxPacketSize pre rest b hdata hpre hacc]
  · intro M r maxPacketSize pre rest b hdata hpre hacc
    exact RecvTkProxyPacket_frame r maxPacketSize pre [b] rest 1 0 0 0 hdata hpre
      (by simp [le32]) (by simp) (by simp) hacc

/-- C8 as amended, run on one frame of each protocol. -/
theorem short_body_by_protocol_witness :
    (RecvLTVPacket echoDecoder ⟨[1, 0, 42, 0], .transport .EOF⟩ 9).outcome
      = .ret .nil (some .ErrShortMsgID) ∧
    (RecvMbPacket ⟨[1, 2, 3, 4, 1, 0, 0, 0, 42, 0], .transport .EOF⟩ 9 : Run Unit).outcome
      = .ret .nil (some .ErrShortMsgID) ∧
    (RecvTkProxyPacket ⟨List.replicate 20 7 ++ [1, 0, 0, 0, 42, 0], .transport .EOF⟩ 9 : Run Unit)
      = ⟨.ret (.conServer ⟨some (List.replicate 20 7 ++ [1, 0, 0, 0] ++ [42]), 0⟩) none,
          ⟨[0], .transport .EOF⟩, []⟩ :=
  ⟨short_body_by_protocol.1 _ echoDecoder ⟨[1, 0, 42, 0], .transport .EOF⟩ 9 1 0 [42] [0]
      rfl rfl (by decide) (by decide),
    short_body_by_protocol.2.1 Unit ⟨[1, 2, 3, 4, 1, 0, 0, 0, 42, 0], .transport .EOF⟩ 9
      [1, 2, 3, 4] [0] 42 rfl rfl (by decide),
    short_body_by_protocol.2.2 Unit ⟨List.replicate 20 7 ++ [1, 0, 0, 0, 42, 0], .transport .EOF⟩ 9
      (List.replicate 20 7) [0] 42 rfl rfl (by decide)⟩

/-! ## Failures while reading the body -/

/-- C9, counterexample: the header is read and accepted, and the body read fails with a
timeout error after two of the five declared bytes. `RecvMbPacket` and
`RecvTkProxyPacket` return an error made by `errors.New`, not the error of the read. -/
theorem body_read_error_replaced :
    (ReadFull ⟨[10, 11], .transport (.net 110 true)⟩ 5).1
      = .error (.transport (.net 110 true)) ∧
    (RecvMbPacket ⟨[1, 2, 3, 4, 5, 0, 0, 0, 10, 11], .transport (.net 110 true)⟩ 0
        : Run Unit).outcome
      = .ret .nil (some (.New "RecvMbPacket read body failed")) ∧
    (RecvMbPacket ⟨[1, 2, 3, 4, 5, 0, 0, 0, 10, 11], .transport (.net 110 true)⟩ 0
        : Run Unit).outcome
      ≠ .ret .nil (some (.transport (.net 110 true))) ∧
    (RecvTkProxyPacket ⟨List.replicate 20 7 ++ [5, 0, 0, 0, 10, 11], .transport (.net 110 true)⟩ 0
        : Run Unit).outcome
      = .ret .nil (some (.New "RecvTkProxyPacket, read body failed")) ∧
    (RecvTkProxyPacket ⟨List.replicate 20 7 ++ [5, 0, 0, 0, 10, 11], .transport (.net 110 true)⟩ 0
        : Run Unit).outcome
      ≠ .ret .nil (some (.transport (.net 110 true))) := by
  refine ⟨rfl, ?_, ?_, ?_, ?_⟩ <;> decide

/-- C9, amended: when the header is read and accepted, the declared body length is not
zero (and, for the proxy protocol, `24 + bodyLen` is below `2^32`), and reading the
body fails with any error `e`, `RecvMbPacket` returns a nil message with the fixed error
`"RecvMbPacket read body failed"` and `RecvTkProxyPacket` a nil message with the fixed
error `"RecvTkProxyPacket, read body failed"`; `e` itself is not handed on. -/
theorem body_read_failure :
    (∀ (M : Type) (r r1 r2 : Reader) (maxPacketSize : Int) (header : List Byte)
        (bodyLen : Nat) (e : Error),
        ReadFull r mbHeaderSize = (.ok header, r1) →
        readUint32At header mbHeaderBodyLenPos = some bodyLen →
        ¬ (maxPacketSize > 0 ∧ bodyLen ≥ uint32 maxPacketSize) → bodyLen ≠ 0 →
        ReadFull r1 bodyLen = (.error e, r2) →
        (RecvMbPacket r maxPacketSize : Run M)
          = ⟨.ret .nil (some (.New "RecvMbPacket read body failed")), r2, []⟩) ∧
    (∀ (M : Type) (r r1 r2 : Reader) (maxPacketSize : Int) (header : List Byte)
        (bodyLen : Nat) (e : Error),
        ReadFull r tkProxyHeaderSize = (.ok header, r1) →
        readUint32At header tkPorxyHeaderBodyLenPos = some bodyLen →
        ¬ (maxPacketSize > 0 ∧ bodyLen ≥ uint32 maxPacketSize) → bodyLen ≠ 0 →
        24 + bodyLen < 4294967296 →
        ReadFull r1 bodyLen = (.error e, r2) →
        (RecvTkProxyPacket r maxPacketSize : Run M)
          = ⟨.ret .nil (some (.New "RecvTkProxyPacket, read body failed")), r2, []⟩) := by
  refine ⟨?_, ?_⟩
  · intro M r r1 r2 maxPacketSize header bodyLen e hhdr hlen hacc hne hbody
    have hl := ReadFull_ok_length r r1 _ header hhdr
    unfold RecvMbPacket
    simp only [hhdr, hlen]
    rw [if_neg (by omega), if_neg hacc, if_neg hne]
    simp only [hbody]
  · intro M r r1 r2 maxPacketSize header bodyLen e hhdr hlen hacc hne hfit hbody
    have hl := ReadFull_ok_length r r1 _ header hhdr
    have h6 : (tkProxyHeaderSize + bodyLen) % 4294967296 = tkProxyHeaderSize + bodyLen :=
      Nat.mod_eq_of_lt (by simp only [tkProxyHeaderSize]; exact hfit)
    unfold RecvTkProxyPacket
    simp only [hhdr, hlen]
    rw [if_neg (by omega), if_neg hacc, if_neg hne]
    simp only [h6, List.length_replicate]
    rw [if_neg (by omega)]
    simp only [Nat.add_sub_cancel_left, hbody]

/-- C9 as amended, run on two streams that time out inside the body. -/
theorem body_read_failure_witness :
    (RecvMbPacket ⟨[1, 2, 3, 4, 5, 0, 0, 0, 10, 11], .transport (.net 110 true)⟩ 0 : Run Unit)
      = ⟨.ret .nil (some (.New "RecvMbPacket read body failed")),
          ⟨[], .transport (.net 110 true)⟩, []⟩ ∧
    (RecvTkProxyPacket ⟨List.replicate 20 7 ++ [5, 0, 0, 0, 10, 11], .transport .EOF⟩ 0 : Run Unit)
      = ⟨.ret .nil (some (.New "RecvTkProxyPacket, read body failed")), ⟨[], .transport .EOF⟩, []⟩
          :=
  ⟨body_read_failure.1 Unit ⟨[1, 2, 3, 4, 5, 0, 0, 0, 10, 11], .transport (.net 110 true)⟩
      ⟨[10, 11], .transport (.net 110 true)⟩ ⟨[], .transport (.net 110 true)⟩
          0 [1, 2, 3, 4, 5, 0, 0, 0] 5
      (.transport (.net 110 true)) rfl rfl (by decide) (by decide) rfl,
    body_read_failure.2 Unit ⟨List.replicate 20 7 ++ [5, 0, 0, 0, 10, 11], .transport .EOF⟩
      ⟨[10, 11], .transport .EOF⟩ ⟨[], .transport .EOF⟩ 0 (List.replicate 20 7 ++ [5, 0, 0, 0]) 5
      (.transport .ErrUnexpectedEOF) (by simp [ReadFull, tkProxyHeaderSize]) (by decide) (by decide)
      (by decide) (by decide) rfl⟩

/-! ## Transport failures in the LTV protocol -/

/-- C10: `RecvLTVPacket` hands transport failures on as they are. When reading the
2-byte length fails with `e`, or when the length is read and accepted and reading the
declared body fails with `e`, it returns a nil message and `e` itself, whatever `e` is
(an unexpected end of stream and a timeout included), and it makes no call to
`DecodeMessage`. -/
theorem RecvLTVPacket_transport_failure :
    (∀ (M : Type) (decode : Decoder M) (r r1 : Reader) (maxPacketSize : Int) (e : Error),
        ReadFull r bodySize = (.error e, r1) →
        RecvLTVPacket decode r maxPacketSize = ⟨.ret .nil (some e), r1, []⟩) ∧
    (∀ (M : Type) (decode : Decoder M) (r r1 r2 : Reader) (maxPacketSize : Int)
        (sizeBuffer : List Byte) (size : Nat) (e : Error),
        ReadFull r bodySize = (.ok sizeBuffer, r1) →
        Uint16 sizeBuffer = some size →
        ¬ (maxPacketSize > 0 ∧ size ≥ uint16 maxPacketSize) →
        ReadFull r1 size = (.error e, r2) →
        RecvLTVPacket decode r maxPacketSize = ⟨.ret .nil (some e), r2, []⟩) := by
  refine ⟨?_, ?_⟩
  · intro M decode r r1 maxPacketSize e hsize
    unfold RecvLTVPacket
    simp only [hsize]
  · intro M decode r r1 r2 maxPacketSize sizeBuffer size e hsize hval hacc hbody
    have hl := ReadFull_ok_length r r1 _ sizeBuffer hsize
    unfold RecvLTVPacket
    simp only [hsize, hval]
    rw [if_neg (by omega), if_neg hacc]
    simp only [hbody]

/-- C10, run on a stream that times out inside the length field, and on a stream that
ends inside the body of a frame whose ID is registered. -/
theorem RecvLTVPacket_transport_failure_witness :
    RecvLTVPacket echoDecoder ⟨[4], .transport (.net 110 true)⟩ 0
      = ⟨.ret .nil (some (.transport (.net 110 true))), ⟨[], .transport (.net 110 true)⟩, []⟩ ∧
    RecvLTVPacket echoDecoder ⟨[4, 0, 42, 0, 255], .transport .EOF⟩ 0
      = ⟨.ret .nil (some (.transport .ErrUnexpectedEOF)), ⟨[], .transport .EOF⟩, []⟩ :=
  ⟨RecvLTVPacket_transport_failure.1 _ echoDecoder ⟨[4], .transport (.net 110 true)⟩
      ⟨[], .transport (.net 110 true)⟩ 0
      (.transport (.net 110 true)) rfl,
    RecvLTVPacket_transport_failure.2 _ echoDecoder ⟨[4, 0, 42, 0, 255], .transport .EOF⟩
      ⟨[42, 0, 255], .transport .EOF⟩ ⟨[], .transport .EOF⟩ 0 [4, 0] 4
      (.transport .ErrUnexpectedEOF) rfl rfl (by decide) rfl⟩

/-! ## The LTV frame on the send side -/

/-- The frame built by `SendLTVPacket` never panics: it is the two length bytes, the
two ID bytes and the payload. -/
theorem ltvPacket_eq (msgID : Int) (msgData : List Byte) :
    ltvPacket msgID msgData
      = some (byte (uint16 ((msgIDSize + msgData.length : Nat) : Int))
          :: byte (uint16 ((msgIDSize + msgData.length : Nat) : Int) / 256)
          :: byte (uint16 msgID) :: byte (uint16 msgID / 256) :: msgData) := by
  have h0 : List.replicate (bodySize + msgIDSize + msgData.length) (0 : Byte)
      = 0 :: 0 :: 0 :: 0 :: List.replicate msgData.length 0 := by
    rw [show bodySize + msgIDSize + msgData.length = msgData.length + 4 by
      simp only [bodySize, msgIDSize]; omega]
    rfl
  unfold ltvPacket
  simp only [h0]
  simp only [PutUint16, bodySize, msgIDSize, List.drop_succ_cons, List.drop_zero,
    List.take_succ_cons, List.take_zero, List.cons_append, List.nil_append, copy,
    List.length_replicate, List.take_of_length_le (Nat.le_refl _)]
  simp

/-- The two bytes written by `PutUint16` read back as the value, for a value below
`2^16`. -/
theorem byte_pair (v : Nat) (h : v < 65536) : (byte v).val + 256 * (byte (v / 256)).val = v := by
  simp only [byte]
  omega

/-- `SendLTVPacket` on a raw packet: one `WriteFull` of the frame, whose result is
returned. -/
theorem SendLTVPacket_raw {V C : Type} (encode : Encoder V C) (writeFull : Writer)
    (m : RawPacket) (pkt : List Byte) (hpkt : ltvPacket m.MsgID m.MsgData = some pkt) :
    SendLTVPacket encode writeFull (.raw m)
      = ⟨.ret (writeFull pkt), [.write pkt]⟩ := by
  simp [SendLTVPacket, hpkt]

/-- `SendLTVPacket` on a value whose encoding succeeds: the encode call, one `WriteFull`
of the frame, then the release of the encoded bytes; the result of the write is
returned. -/
theorem SendLTVPacket_value {V C : Type} (encode : Encoder V C) (writeFull : Writer)
    (v : V) (msgData : List Byte) (meta : MessageMeta C) (pkt : List Byte)
    (henc : encode v = (msgData, some meta, none))
    (hpkt : ltvPacket meta.ID msgData = some pkt) :
    SendLTVPacket encode writeFull (.value v)
      = ⟨.ret (writeFull pkt),
          [.encode v, .write pkt, .free meta.Codec msgData]⟩ := by
  simp [SendLTVPacket, henc, hpkt]

/-- `SendLTVPacket` on a value whose encoding fails: the encode call only, and its
error. -/
theorem SendLTVPacket_encode_error {V C : Type} (encode : Encoder V C) (writeFull : Writer)
    (v : V) (msgData : List Byte) (meta : Option (MessageMeta C)) (e : Error)
    (henc : encode v = (msgData, meta, some e)) :
    SendLTVPacket encode writeFull (.value v) = ⟨.ret (some e), [.encode v]⟩ := by
  simp [SendLTVPacket, henc]

/-- For a raw packet with ID 1 and a payload of 65534 bytes, `SendLTVPacket` writes the
length bytes `00 00`. -/
theorem SendLTVPacket_payload_65534 (payload : List Byte) (h : payload.length = 65534) :
    (SendLTVPacket echoEncoder okWriter (.raw ⟨payload, 1⟩)).events
      = [.write (0 :: 0 :: 1 :: 0 :: payload)] := by
  have hpkt := ltvPacket_eq 1 payload
  rw [SendLTVPacket_raw echoEncoder okWriter ⟨payload, 1⟩ _ hpkt]
  simp only [h, msgIDSize]
  have h1 : uint16 ((2 + 65534 : Nat) : Int) = 0 := by decide
  have h2 : uint16 1 = 1 := by decide
  rw [h1, h2]
  rfl

/-- C11, counterexample: for a raw packet with ID 1 and a payload of 65534 bytes the
length `2 + len(payload)` is 65536, and the two length bytes that `SendLTVPacket`
writes read as 0. -/
theorem SendLTVPacket_long_payload :
    (SendLTVPacket echoEncoder okWriter (.raw ⟨List.replicate 65534 0, 1⟩)).events
      = [.write (0 :: 0 :: 1 :: 0 :: List.replicate 65534 0)] ∧
    Uint16 (0 :: 0 :: 1 :: 0 :: List.replicate 65534 0) = some 0 ∧
    2 + (List.replicate 65534 (0 : Byte)).length = 65536 :=
  ⟨SendLTVPacket_payload_65534 _ (List.length_replicate _ _), rfl,
    by rw [List.length_replicate]⟩

/-- C11, amended: for every raw packet with message ID in `0..65535` and a payload of
at most 65533 bytes, `SendLTVPacket` makes exactly one `WriteFull` call and no codec
call; the buffer written is two bytes that read little-endian as `2 + len(payload)`,
two bytes that read little-endian as the message ID, and then the payload (so it has
`2 + 2 + len(payload)` bytes); the result of that write is returned. -/
theorem SendLTVPacket_raw_frame {V C : Type} (encode : Encoder V C) (writeFull : Writer)
    (m : RawPacket) (hid0 : 0 ≤ m.MsgID) (hid1 : m.MsgID ≤ 65535)
    (hlen : m.MsgData.length ≤ 65533) :
    ∃ l0 l1 i0 i1 : Byte,
      (SendLTVPacket encode writeFull (.raw m)).events
        = [.write (l0 :: l1 :: i0 :: i1 :: m.MsgData)] ∧
      l0.val + 256 * l1.val = 2 + m.MsgData.length ∧
      ((i0.val + 256 * i1.val : Nat) : Int) = m.MsgID ∧
      (SendLTVPacket encode writeFull (.raw m)).outcome
        = .ret (writeFull (l0 :: l1 :: i0 :: i1 :: m.MsgData)) := by
  have hpkt := ltvPacket_eq m.MsgID m.MsgData
  have hrun := SendLTVPacket_raw encode writeFull m _ hpkt
  have hv : uint16 ((msgIDSize + m.MsgData.length : Nat) : Int) = 2 + m.MsgData.length := by
    have := uint16_of_small ((msgIDSize + m.MsgData.length : Nat) : Int) (by omega)
      (by simp only [msgIDSize]; omega)
    simp only [msgIDSize] at this ⊢
    omega
  have hw := uint16_of_small m.MsgID hid0 hid1
  refine ⟨_, _, _, _, by rw [hrun], ?_, ?_, by rw [hrun]⟩
  · rw [byte_pair _ (by omega), hv]
  · rw [byte_pair _ (by omega), hw]

/-- C11 as amended, run on the raw packet with ID 42 and payload `FF`. -/
theorem SendLTVPacket_raw_frame_witness :
    ∃ l0 l1 i0 i1 : Byte,
      (SendLTVPacket echoEncoder okWriter (.raw ⟨[255], 42⟩)).events
        = [.write (l0 :: l1 :: i0 :: i1 :: [255])] ∧
      l0.val + 256 * l1.val = 2 + 1 ∧
      ((i0.val + 256 * i1.val : Nat) : Int) = 42 ∧
      (SendLTVPacket echoEncoder okWriter (.raw ⟨[255], 42⟩)).outcome
        = .ret (okWriter (l0 :: l1 :: i0 :: i1 :: [255])) :=
  SendLTVPacket_raw_frame echoEncoder okWriter ⟨[255], 42⟩ (by decide) (by decide) (by decide)

/-! ## Codec calls on the send side -/

/-- C12: for a value that is not a raw packet, when `EncodeMessage` succeeds with
`(msgData, meta)`, `SendLTVPacket` calls `EncodeMessage`, then `WriteFull` with the
frame, then `FreeCodecResource(meta.Codec, msgData)` exactly once, whether the write
succeeds or fails, and returns the result of the write; when `EncodeMessage` fails, its
error is returned and there is neither a write nor a release. -/
theorem SendLTVPacket_release :
    (∀ (V C : Type) (encode : Encoder V C) (writeFull : Writer) (v : V)
        (msgData : List Byte) (meta : MessageMeta C),
        encode v = (msgData, some meta, none) →
        ∃ pkt, ltvPacket meta.ID msgData = some pkt ∧
          SendLTVPacket encode writeFull (.value v)
            = ⟨.ret (writeFull pkt),
                [.encode v, .write pkt, .free meta.Codec msgData]⟩) ∧
    (∀ (V C : Type) (encode : Encoder V C) (writeFull : Writer) (v : V)
        (msgData : List Byte) (meta : Option (MessageMeta C)) (e : Error),
        encode v = (msgData, meta, some e) →
        SendLTVPacket encode writeFull (.value v) = ⟨.ret (some e), [.encode v]⟩) := by
  refine ⟨?_, ?_⟩
  · intro V C encode writeFull v msgData meta henc
    exact ⟨_, ltvPacket_eq meta.ID msgData,
      SendLTVPacket_value encode writeFull v msgData meta _ henc (ltvPacket_eq meta.ID msgData)⟩
  · intro V C encode writeFull v msgData meta e henc
    exact SendLTVPacket_encode_error encode writeFull v msgData meta e henc

/-- C12, run on a registered value with a writer that works and with one that fails,
and on an unregistered value. -/
theorem SendLTVPacket_release_witness :
    (∃ pkt, ltvPacket 42 [255] = some pkt ∧
      SendLTVPacket echoEncoder okWriter (.value (42, [255]))
        = ⟨.ret none, [.encode (42, [255]), .write pkt, .free () [255]]⟩) ∧
    (∃ pkt, ltvPacket 42 [255] = some pkt ∧
      SendLTVPacket echoEncoder brokenWriter (.value (42, [255]))
        = ⟨.ret (some (.transport (.other 32))),
            [.encode (42, [255]), .write pkt, .free () [255]]⟩) ∧
    SendLTVPacket echoEncoder okWriter (.value (7, [255]))
      = ⟨.ret (some (.codec ⟨"msg not exists"⟩)), [.encode (7, [255])]⟩ :=
  ⟨SendLTVPacket_release.1 _ _ echoEncoder okWriter (42, [255]) [255] ⟨42, ()⟩ rfl,
    SendLTVPacket_release.1 _ _ echoEncoder brokenWriter (42, [255]) [255] ⟨42, ()⟩ rfl,
    SendLTVPacket_release.2 _ _ echoEncoder okWriter (7, [255]) [] none
      (.codec ⟨"msg not exists"⟩) rfl⟩

/-- C13: a raw packet bypasses the codec registry. For a raw packet, `SendLTVPacket`
frames the packet's own ID and bytes and its only call is the write: neither
`EncodeMessage` nor `FreeCodecResource` is called. For every other value its first call
is `EncodeMessage`, no later call is, and when the encoding succeeds with
`(msgData, meta)` the frame written is the one built from `meta.ID` and `msgData`. -/
theorem SendLTVPacket_raw_bypass :
    (∀ (V C : Type) (encode : Encoder V C) (writeFull : Writer) (m : RawPacket),
        ∃ pkt, ltvPacket m.MsgID m.MsgData = some pkt ∧
          (SendLTVPacket encode writeFull (.raw m)).events = [.write pkt]) ∧
    (∀ (V C : Type) (encode : Encoder V C) (writeFull : Writer) (v : V),
        ∃ rest, (SendLTVPacket encode writeFull (.value v)).events = .encode v :: rest ∧
          (∀ d, SendEvent.encode d ∉ rest) ∧
          (∀ (msgData : List Byte) (meta : MessageMeta C),
            encode v = (msgData, some meta, none) →
            ∃ pkt, ltvPacket meta.ID msgData = some pkt ∧ SendEvent.write pkt ∈ rest)) := by
  refine ⟨?_, ?_⟩
  · intro V C encode writeFull m
    refine ⟨_, ltvPacket_eq m.MsgID m.MsgData, ?_⟩
    rw [SendLTVPacket_raw encode writeFull m _ (ltvPacket_eq m.MsgID m.MsgData)]
  · intro V C encode writeFull v
    rcases henc : encode v with ⟨msgData, meta, err⟩
    cases err with
    | some e =>
      refine ⟨[], ?_, by simp, ?_⟩
      · rw [SendLTVPacket_encode_error encode writeFull v msgData meta e henc]
      · intro msgData2 meta2 h
        simp at h
    | none =>
      cases meta with
      | none =>
        refine ⟨[], by simp [SendLTVPacket, henc], by simp, ?_⟩
        intro msgData2 meta2 h
        simp at h
      | some meta =>
        have hpkt := ltvPacket_eq meta.ID msgData
        refine ⟨_, by rw [SendLTVPacket_value encode writeFull v msgData meta _ henc hpkt],
          by simp, ?_⟩
        intro msgData2 meta2 h
        simp only [Prod.mk.injEq, Option.some.injEq, and_true] at h
        obtain ⟨h1, h2⟩ := h
        subst h1 h2
        exact ⟨_, hpkt, by simp⟩

/-- C13, run on the raw packet with ID 42 and payload `FF`, and on a registered value
with the same ID and bytes. -/
theorem SendLTVPacket_raw_bypass_witness :
    (∃ pkt, ltvPacket 42 [255] = some pkt ∧
      (SendLTVPacket echoEncoder okWriter (.raw ⟨[255], 42⟩)).events = [.write pkt]) ∧
    (∃ rest, (SendLTVPacket echoEncoder okWriter (.value (42, [255]))).events
        = .encode (42, [255]) :: rest ∧
      ∃ pkt, ltvPacket 42 [255] = some pkt ∧ SendEvent.write pkt ∈ rest) := by
  refine ⟨SendLTVPacket_raw_bypass.1 _ Unit echoEncoder okWriter ⟨[255], 42⟩, ?_⟩
  obtain ⟨rest, h1, _, h3⟩ := SendLTVPacket_raw_bypass.2 _ _ echoEncoder okWriter (42, [255])
  exact ⟨rest, h1, h3 [255] ⟨42, ()⟩ rfl⟩

/-! ## Complete LTV frames -/

/-- `RecvLTVPacket` on a stream that starts with a complete frame whose length passes
the size check: the frame is consumed, and `DecodeMessage` is called once with the ID
and the payload and decides the result. -/
theorem RecvLTVPacket_run {M : Type} (decode : Decoder M) (r : Reader)
    (maxPacketSize : Int) (l0 l1 i0 i1 : Byte) (payload rest : List Byte)
    (hdata : r.data = l0 :: l1 :: i0 :: i1 :: (payload ++ rest))
    (hlen : l0.val + 256 * l1.val = 2 + payload.length)
    (hacc : ¬ (maxPacketSize > 0 ∧ l0.val + 256 * l1.val ≥ uint16 maxPacketSize)) :
    RecvLTVPacket decode r maxPacketSize =
      match decode (i0.val + 256 * i1.val) payload with
      | (_, some e) =>
        ⟨.ret .nil (some e), { r with data := rest }, [(i0.val + 256 * i1.val, payload)]⟩
      | (msg, none) =>
        ⟨.ret msg none, { r with data := rest }, [(i0.val + 256 * i1.val, payload)]⟩ := by
  have h1 : ReadFull r bodySize
      = (.ok [l0, l1], { r with data := i0 :: i1 :: (payload ++ rest) }) :=
    ReadFull_front r [l0, l1] _ (by simpa using hdata)
  have h2 : ReadFull { r with data := i0 :: i1 :: (payload ++ rest) } (l0.val + 256 * l1.val)
      = (.ok (i0 :: i1 :: payload), { r with data := rest }) := by
    have := ReadFull_front { r with data := i0 :: i1 :: (payload ++ rest) }
      (i0 :: i1 :: payload) rest (by simp)
    have hl : (i0 :: i1 :: payload).length = l0.val + 256 * l1.val := by
      rw [hlen, List.length_cons, List.length_cons]
      omega
    rw [← hl]
    exact this
  unfold RecvLTVPacket
  simp only [h1]
  simp only [Uint16, bodySize, List.length_cons, List.length_nil, Nat.lt_irrefl, if_false]
  rw [if_neg hacc]
  simp only [h2]
  simp [msgIDSize]

/-- C14, counterexample: the stream `04 00 2A 00 FF` declares a body of 4 bytes and
carries 3, so with ID 42 registered and no size limit `RecvLTVPacket` fails with
`ErrUnexpectedEOF` while reading the body and hands nothing to the codec registry. -/
theorem ltv_scenario_body_incomplete :
    echoDecoder 42 [255] = (.user (42, [255]), none) ∧
    (RecvLTVPacket echoDecoder ⟨[4, 0, 42, 0, 255], .transport .EOF⟩ 0).outcome
      = .ret .nil (some (.transport .ErrUnexpectedEOF)) ∧
    (RecvLTVPacket echoDecoder ⟨[4, 0, 42, 0, 255], .transport .EOF⟩ 0).decodeCalls = [] := by
  decide

/-- C14, amended: `RecvLTVPacket` reading the stream that consists of exactly the bytes
`03 00 2A 00 FF` (body length 3: two ID bytes and one payload byte), with no size limit
rejecting it, hands message ID 42 and the 1-byte payload `FF` to the codec registry
once, and returns the decoded message when the registry decodes it and the registry's
error, with a nil message, when it does not (ID 42 unregistered). -/
theorem ltv_scenario {M : Type} (decode : Decoder M) (fail : Error) (maxPacketSize : Int)
    (hacc : ¬ (maxPacketSize > 0 ∧ 3 ≥ uint16 maxPacketSize)) :
    (RecvLTVPacket decode ⟨[3, 0, 42, 0, 255], fail⟩ maxPacketSize).decodeCalls
      = [(42, [255])] ∧
    (RecvLTVPacket decode ⟨[3, 0, 42, 0, 255], fail⟩ maxPacketSize).reader = ⟨[], fail⟩ ∧
    (∀ msg, decode 42 [255] = (msg, none) →
      (RecvLTVPacket decode ⟨[3, 0, 42, 0, 255], fail⟩ maxPacketSize).outcome
        = .ret msg none) ∧
    (∀ msg e, decode 42 [255] = (msg, some e) →
      (RecvLTVPacket decode ⟨[3, 0, 42, 0, 255], fail⟩ maxPacketSize).outcome
        = .ret .nil (some e)) := by
  have hrun := RecvLTVPacket_run decode ⟨[3, 0, 42, 0, 255], fail⟩ maxPacketSize 3 0 42 0
    [255] [] rfl (by decide) hacc
  have hid : ((42 : Byte).val + 256 * (0 : Byte).val) = 42 := by decide
  rw [hid] at hrun
  rw [hrun]
  rcases hd : decode 42 [255] with ⟨msg, _ | e⟩ <;> simp

/-- C14 as amended, run with ID 42 registered and with an empty registry. -/
theorem ltv_scenario_witness :
    (RecvLTVPacket echoDecoder ⟨[3, 0, 42, 0, 255], .transport .EOF⟩ 0).outcome
      = .ret (.user (42, [255])) none ∧
    (RecvLTVPacket emptyDecoder ⟨[3, 0, 42, 0, 255], .transport .EOF⟩ 0).outcome
      = .ret .nil (some (.codec ⟨"msg not exists"⟩)) :=
  ⟨(ltv_scenario echoDecoder (.transport .EOF) 0 (by decide)).2.2.1 _ rfl,
    (ltv_scenario emptyDecoder (.transport .EOF) 0 (by decide)).2.2.2 .nil _ rfl⟩

/-! ## The size check against maxima that do not fit the length field -/

/-- C15, at the failing inputs: the size check compares the declared length with
`uint16(maxPacketSize)`, respectively `uint32(maxPacketSize)`. With
`maxPacketSize = 65536` the LTV frame `03 00 2A 00 FF` (declared length 3), and with
`maxPacketSize = 2^32 + 1` a mobile and a proxy frame of declared length 3, are rejected
with `ErrMaxPacket` although the declared length is below the maximum. -/
theorem within_limit_rejected :
    RecvLTVPacket echoDecoder ⟨[3, 0, 42, 0, 255], .transport .EOF⟩ 65536
      = ⟨.ret .nil (some .ErrMaxPacket), ⟨[42, 0, 255], .transport .EOF⟩, []⟩ ∧
    (RecvMbPacket ⟨[1, 2, 3, 4, 3, 0, 0, 0, 10, 11, 12], .transport .EOF⟩ 4294967297 : Run Unit)
      = ⟨.ret .nil (some .ErrMaxPacket), ⟨[10, 11, 12], .transport .EOF⟩, []⟩ ∧
    (RecvTkProxyPacket ⟨List.replicate 20 7 ++ [3, 0, 0, 0, 10, 11, 12], .transport .EOF⟩ 4294967297
        : Run Unit)
      = ⟨.ret .nil (some .ErrMaxPacket), ⟨[10, 11, 12], .transport .EOF⟩, []⟩ := by
  refine ⟨?_, ?_, ?_⟩ <;> decide

/-! ## Transmitters on an unusable raw handle -/

/-- With a peer that implements `socketOpt`: on a raw handle that is not a `net.Conn`
(nil, not a reader, or a reader of another kind) both `OnRecvMessage` methods return
`(nil, nil)` without a protocol read, and on a raw handle that is not a writer both
`OnSendMessage` methods return `nil` without a write. -/
theorem unusable_handle_no_op (M : Type) (writeFull : Writer) (ses : Session)
    (msg : Option (List Byte)) (hpeer : ses.peerIsSocketOpt = true) :
    (ses.Raw.isConn = false →
      (mbMessageTransmitter.OnRecvMessage ses : RecvCall M) = ⟨.ret .nil none, none⟩ ∧
      (proxyMessageTransmitter.OnRecvMessage ses : RecvCall M) = ⟨.ret .nil none, none⟩) ∧
    (ses.Raw.isWriter = false →
      mbMessageTransmitter.OnSendMessage writeFull ses msg = ⟨.ret none, []⟩ ∧
      proxyMessageTransmitter.OnSendMessage writeFull ses msg = ⟨.ret none, []⟩) := by
  refine ⟨?_, ?_⟩
  · intro hconn
    unfold mbMessageTransmitter.OnRecvMessage proxyMessageTransmitter.OnRecvMessage
    cases hr : ses.Raw.asReader <;> simp [hpeer, hconn]
  · intro hw
    simp [mbMessageTransmitter.OnSendMessage, proxyMessageTransmitter.OnSendMessage, hw]

/-- C16, at the failing input: the raw handle is a reader and writer that is not a
`net.Conn`, and the peer implements `socketOpt`. Both `OnRecvMessage` methods return
`(nil, nil)` without a read, and both `OnSendMessage` methods panic on the type
assertion `writer.(net.Conn)` instead of returning `nil`. -/
theorem OnSendMessage_transport_mismatch :
    (mbMessageTransmitter.OnRecvMessage ⟨.plain true true ⟨[], .transport .EOF⟩, true, true, 0⟩
        : RecvCall Unit) = ⟨.ret .nil none, none⟩ ∧
    (proxyMessageTransmitter.OnRecvMessage ⟨.plain true true ⟨[], .transport .EOF⟩, true, true, 0⟩
        : RecvCall Unit) = ⟨.ret .nil none, none⟩ ∧
    mbMessageTransmitter.OnSendMessage okWriter ⟨.plain true true ⟨[], .transport .EOF⟩, true, true, 0⟩
        (some [1, 2, 3])
      = ⟨.panic "interface conversion: not net.Conn", []⟩ ∧
    proxyMessageTransmitter.OnSendMessage okWriter ⟨.plain true true ⟨[], .transport .EOF⟩, true, true, 0⟩
        (some [1, 2, 3])
      = ⟨.panic "interface conversion: not net.Conn", []⟩ := by
  refine ⟨?_, ?_, ?_, ?_⟩ <;> decide

/-! ## Lookup in the codec registry -/

/-- In a registry with unique IDs, looking up the ID of a registered entry finds that
entry. -/
theorem find_by_id {T V : Type} (reg : Registry T V) (e : CodecEntry T V)
    (hunique : reg.UniqueIDs) (hmem : e ∈ reg) :
    reg.find? (fun x => decide (x.id = e.id)) = some e := by
  induction reg with
  | nil => cases hmem
  | cons x xs ih =>
    unfold Registry.UniqueIDs at hunique
    rw [List.map_cons, List.nodup_cons] at hunique
    rcases List.mem_cons.mp hmem with h | h
    · subst h
      simp [List.find?]
    · have hne : ¬ x.id = e.id := by
        intro hx
        apply hunique.1
        rw [hx]
        exact List.mem_map_of_mem CodecEntry.id h
      simp only [List.find?, hne, decide_False]
      exact ih hunique.2 h

/-- What a successful type lookup returns is an entry of the registry for that type. -/
theorem find_by_type {T V : Type} [DecidableEq T] (reg : Registry T V) (t : T)
    (e : CodecEntry T V) (h : reg.find? (fun x => decide (x.msgType = t)) = some e) :
    e ∈ reg ∧ e.msgType = t := by
  induction reg with
  | nil => simp at h
  | cons x xs ih =>
    by_cases hx : x.msgType = t
    · simp only [List.find?, hx, decide_True, Option.some.injEq] at h
      subst h
      exact ⟨List.mem_cons_self _ _, hx⟩
    · simp only [List.find?, hx, decide_False] at h
      exact ⟨List.mem_cons_of_mem _ (ih h).1, (ih h).2⟩

/-- Lookup consistency of the codec registry: in a registry with unique IDs,
`DecodeMessage` under the ID that `EncodeMessage(m)` returned reaches the codec that
encoded `m`. Hence, if that codec decodes what it encodes from `m` back to `m`, the
decoded message is `m`, under the same meta. Whether a codec has that property is not
decided here. -/
theorem decode_reaches_encoding_codec {T V : Type} [DecidableEq T] (reg : Registry T V) (typeOf : V → T)
    (m : V) (data : List Byte) (meta : MessageMeta T)
    (hunique : reg.UniqueIDs)
    (hpair : ∀ e ∈ reg, e.msgType = typeOf m →
      ∀ bytes, e.encodeFn m = .ok bytes → e.decodeFn bytes = .ok m)
    (henc : EncodeMessage reg typeOf m = .ok (data, meta)) :
    DecodeMessage reg meta.ID data = .ok (m, meta) := by
  unfold EncodeMessage at henc
  cases hfind : reg.find? (fun e => decide (e.msgType = typeOf m)) with
  | none => simp [hfind] at henc
  | some e =>
    simp only [hfind] at henc
    obtain ⟨hmem, htype⟩ := find_by_type reg (typeOf m) e hfind
    cases hencode : e.encodeFn m with
    | error err => simp [hencode] at henc
    | ok bytes =>
      simp only [hencode, Except.ok.injEq, Prod.mk.injEq] at henc
      obtain ⟨hdata, hmeta⟩ := henc
      subst hdata hmeta
      have hdec := hpair e hmem htype bytes hencode
      unfold DecodeMessage
      simp only [find_by_id reg e hunique hmem, hdec]

/-- Lookup consistency, run on `ContentACK` with `Value = 67994` and `Msg = "hello"` in
a registry whose codec is the four-byte codec above. -/
theorem decode_reaches_encoding_codec_example :
    EncodeMessage testRegistry (fun _ => "test.ContentACK") helloACK
      = .ok ([154, 9, 1, 0, 104, 101, 108, 108, 111], ⟨1, "test.ContentACK"⟩) ∧
    DecodeMessage testRegistry 1 [154, 9, 1, 0, 104, 101, 108, 108, 111]
      = .ok (helloACK, (⟨1, "test.ContentACK"⟩ : MessageMeta String)) := by
  have henc : EncodeMessage testRegistry (fun _ => "test.ContentACK") helloACK
      = .ok ([154, 9, 1, 0, 104, 101, 108, 108, 111], ⟨1, "test.ContentACK"⟩) := by
    rfl
  refine ⟨henc, ?_⟩
  refine decode_reaches_encoding_codec testRegistry (fun _ => "test.ContentACK") helloACK _ ⟨1, _⟩
      ?_ ?_ henc
  · simp [Registry.UniqueIDs, testRegistry, Register]
  · intro e he _ bytes hb
    simp only [testRegistry, Register, List.nil_append, List.mem_singleton] at he
    subst he
    simp only [contentACKEncode, Except.ok.injEq] at hb
    subst hb
    rfl

/-! ## The timeout sentinel and the stream -/

/-- Once the 24-byte header is read, `RecvTkProxyPacket` does not return the timeout
sentinel. -/
theorem RecvTkProxyPacket_no_sentinel_after_header {M : Type} (r r1 : Reader)
    (maxPacketSize : Int) (header : List Byte)
    (hrf : ReadFull r tkProxyHeaderSize = (.ok header, r1)) :
    (RecvTkProxyPacket r maxPacketSize : Run M).outcome
      ≠ .ret (.conServer { Data := none, ErrNo := 1 }) none := by
  unfold RecvTkProxyPacket
  simp only [hrf]
  repeat' split
  all_goals simp

/-- C18, counterexample: the reader delivers three header bytes and then times out.
`RecvTkProxyPacket` returns the timeout sentinel and leaves the reader without those
three bytes. -/
theorem sentinel_after_partial_header :
    (RecvTkProxyPacket ⟨[1, 2, 3], .transport (.net 110 true)⟩ 0 : Run Unit).outcome
      = .ret (.conServer { Data := none, ErrNo := 1 }) none ∧
    (RecvTkProxyPacket ⟨[1, 2, 3], .transport (.net 110 true)⟩ 0 : Run Unit).reader
      = ⟨[], .transport (.net 110 true)⟩ ∧
    (RecvTkProxyPacket ⟨[1, 2, 3], .transport (.net 110 true)⟩ 0 : Run Unit).reader
      ≠ ⟨[1, 2, 3], .transport (.net 110 true)⟩ := by
  decide

/-- C18, amended: whenever `RecvTkProxyPacket` returns the timeout sentinel, the reader
had fewer than 24 bytes to deliver before it timed out, and all of them have been
consumed and dropped: the stream is left untouched only when not a single header byte
had arrived. -/
theorem sentinel_consumes_partial_header {M : Type} (r : Reader) (maxPacketSize : Int)
    (h : (RecvTkProxyPacket r maxPacketSize : Run M).outcome
      = .ret (.conServer { Data := none, ErrNo := 1 }) none) :
    r.data.length < tkProxyHeaderSize ∧
    (∃ code, r.fail = .transport (.net code true)) ∧
    (RecvTkProxyPacket r maxPacketSize : Run M).reader = { r with data := [] } ∧
    ((RecvTkProxyPacket r maxPacketSize : Run M).reader = r ↔ r.data = []) := by
  by_cases hlen : r.data.length < tkProxyHeaderSize
  · have hrf := ReadFull_short r tkProxyHeaderSize hlen
    have hreader : (RecvTkProxyPacket r maxPacketSize : Run M).reader = { r with data := [] } := by
      unfold RecvTkProxyPacket
      simp only [hrf]
      split <;> rfl
    have hfail : ∃ code, r.fail = .transport (.net code true) := by
      unfold RecvTkProxyPacket at h
      simp only [hrf] at h
      split at h
      · rename_i code heq
        split at heq
        · cases heq
        · exact ⟨code, heq⟩
      · simp at h
    refine ⟨hlen, hfail, hreader, ?_⟩
    rw [hreader]
    constructor
    · intro heq
      rw [← heq]
    · intro hnil
      cases r
      simp only at hnil
      subst hnil
      rfl
  · exfalso
    have hrf : ReadFull r tkProxyHeaderSize
        = (.ok (r.data.take tkProxyHeaderSize),
            { r with data := r.data.drop tkProxyHeaderSize }) := by
      simp [ReadFull, Nat.le_of_not_lt hlen]
    exact RecvTkProxyPacket_no_sentinel_after_header r _ maxPacketSize _ hrf h

/-- C18 as amended, run on a reader that times out after three header bytes. -/
theorem sentinel_consumes_partial_header_witness :
    ([1, 2, 3] : List Byte).length < tkProxyHeaderSize ∧
    (RecvTkProxyPacket ⟨[1, 2, 3], .transport (.net 110 true)⟩ 0 : Run Unit).reader
      = ⟨[], .transport (.net 110 true)⟩ :=
  ⟨(@sentinel_consumes_partial_header Unit ⟨[1, 2, 3], .transport (.net 110 true)⟩ 0
      (by decide)).1,
    (@sentinel_consumes_partial_header Unit ⟨[1, 2, 3], .transport (.net 110 true)⟩ 0
      (by decide)).2.2.1⟩

/-! ## Round trip of the LTV framing -/

/-- C19: for every message ID in `0..65535`, every payload of at most 65533 bytes and
every `maxPacketSize` that is not positive or satisfies
`2 + len(payload) < maxPacketSize ≤ 65535`, `RecvLTVPacket` run on exactly the bytes
that `SendLTVPacket` writes for the raw packet with that ID and payload consumes the
whole frame, hands the same ID and the same payload bytes to `DecodeMessage`, and
returns what that call returns. -/
theorem ltv_round_trip {M V C : Type} (decode : Decoder M) (encode : Encoder V C)
    (writeFull : Writer) (id : Int) (payload : List Byte) (fail : Error)
    (maxPacketSize : Int)
    (hid0 : 0 ≤ id) (hid1 : id ≤ 65535) (hlen : payload.length ≤ 65533)
    (hmax : maxPacketSize ≤ 0 ∨
      (((2 + payload.length : Nat) : Int) < maxPacketSize ∧ maxPacketSize ≤ 65535)) :
    ∃ pkt, (SendLTVPacket encode writeFull (.raw ⟨payload, id⟩)).events = [.write pkt] ∧
      (RecvLTVPacket decode ⟨pkt, fail⟩ maxPacketSize).reader = ⟨[], fail⟩ ∧
      (RecvLTVPacket decode ⟨pkt, fail⟩ maxPacketSize).decodeCalls = [(id.toNat, payload)] ∧
      (∀ msg, decode id.toNat payload = (msg, none) →
        (RecvLTVPacket decode ⟨pkt, fail⟩ maxPacketSize).outcome = .ret msg none) ∧
      (∀ msg e, decode id.toNat payload = (msg, some e) →
        (RecvLTVPacket decode ⟨pkt, fail⟩ maxPacketSize).outcome
          = .ret .nil (some e)) := by
  have hpkt := ltvPacket_eq id payload
  have hsend := SendLTVPacket_raw encode writeFull ⟨payload, id⟩ _ hpkt
  have hv : uint16 ((msgIDSize + payload.length : Nat) : Int) = 2 + payload.length := by
    have := uint16_of_small ((msgIDSize + payload.length : Nat) : Int) (by omega)
      (by simp only [msgIDSize]; omega)
    simp only [msgIDSize] at this ⊢
    omega
  have hw : uint16 id = id.toNat := by
    have := uint16_of_small id hid0 hid1
    omega
  generalize uint16 ((msgIDSize + payload.length : Nat) : Int) = v at hsend hv
  generalize uint16 id = w at hsend hw
  have hl := (byte_pair v (by omega)).trans hv
  have hi := (byte_pair w (by omega)).trans hw
  have hacc := ltv_size_accepted (2 + payload.length) maxPacketSize hmax
  rw [← hl] at hacc
  have hrun := RecvLTVPacket_run decode
    ⟨byte v :: byte (v / 256) :: byte w :: byte (w / 256) :: payload, fail⟩ maxPacketSize
    (byte v) (byte (v / 256)) (byte w) (byte (w / 256)) payload [] (by simp) hl hacc
  rw [hi] at hrun
  refine ⟨_, by rw [hsend], ?_⟩
  rw [hrun]
  rcases hd : decode id.toNat payload with ⟨msg, _ | e⟩ <;> simp

/-- C19, run on ID 42 and payload `FF 07` under a maximum of 5. -/
theorem ltv_round_trip_witness :
    ∃ pkt, (SendLTVPacket echoEncoder okWriter (.raw ⟨[255, 7], 42⟩)).events = [.write pkt] ∧
      (RecvLTVPacket echoDecoder ⟨pkt, .transport .EOF⟩ 5).reader = ⟨[], .transport .EOF⟩ ∧
      (RecvLTVPacket echoDecoder ⟨pkt, .transport .EOF⟩ 5).outcome
        = .ret (.user (42, [255, 7])) none := by
  obtain ⟨pkt, h1, h2, _, h4, _⟩ := ltv_round_trip echoDecoder echoEncoder okWriter 42
    [255, 7] (.transport .EOF) 5 (by decide) (by decide) (by decide) (Or.inr (by decide))
  exact ⟨pkt, h1, h2, h4 _ rfl⟩

/-! ## The defensive branches -/

/-- The length field lies within the header: reading it at an offset that leaves four
bytes succeeds. -/
theorem readUint32At_some (header : List Byte) (pos : Nat) (h : pos + 4 ≤ header.length) :
    ∃ n, readUint32At header pos = some n := by
  have hlen : (header.drop pos).length = header.length - pos := List.length_drop pos header
  unfold readUint32At
  rcases hd : header.drop pos with _ | ⟨b0, _ | ⟨b1, _ | ⟨b2, _ | ⟨b3, t⟩⟩⟩⟩
  all_goals rw [hd] at hlen
  all_goals simp only [List.length_cons, List.length_nil] at hlen
  · omega
  · omega
  · omega
  · omega
  · exact ⟨_, rfl⟩

/-- A failing `ReadFull` reports the reader's own error, or `ErrUnexpectedEOF`. -/
theorem ReadFull_error (r r1 : Reader) (n : Nat) (e : Error)
    (h : ReadFull r n = (.error e, r1)) :
    e = r.fail ∨ e = .transport .ErrUnexpectedEOF := by
  unfold ReadFull at h
  split at h
  · simp at h
  · simp only [Prod.mk.injEq, Except.error.injEq] at h
    rw [← h.1]
    split
    · exact Or.inr rfl
    · exact Or.inl rfl

/-- The reader that `ReadFull` leaves behind fails with the same error. -/
theorem ReadFull_fail (r r1 : Reader) (n : Nat) (res : Except Error (List Byte))
    (h : ReadFull r n = (res, r1)) : r1.fail = r.fail := by
  unfold ReadFull at h
  split at h
  all_goals simp only [Prod.mk.injEq] at h
  all_goals rw [← h.2]

/-- Where the error of `RecvLTVPacket` comes from: the reader's own error,
`ErrUnexpectedEOF`, the size check, the check of the body length, or
`DecodeMessage`. -/
theorem RecvLTVPacket_error {M : Type} (decode : Decoder M) (r : Reader)
    (maxPacketSize : Int) (msg : Value M) (e : Error)
    (h : (RecvLTVPacket decode r maxPacketSize).outcome = .ret msg (some e)) :
    e = r.fail ∨ e = .transport .ErrUnexpectedEOF ∨ e = .ErrMaxPacket ∨ e = .ErrShortMsgID ∨
      ∃ id data m, decode id data = (m, some e) := by
  rcases hrf : ReadFull r bodySize with ⟨res, r1⟩
  cases res with
  | error e1 =>
    simp only [RecvLTVPacket, hrf, Outcome.ret.injEq, Option.some.injEq] at h
    rcases ReadFull_error r r1 _ e1 hrf with h1 | h1
    · exact Or.inl (by rw [← h.2, h1])
    · exact Or.inr (Or.inl (by rw [← h.2, h1]))
  | ok sizeBuffer =>
    have hl := ReadFull_ok_length r r1 _ sizeBuffer hrf
    have hf := ReadFull_fail r r1 _ _ hrf
    unfold RecvLTVPacket at h
    simp only [hrf] at h
    rw [if_neg (by omega)] at h
    split at h
    · simp at h
    · split at h
      · simp only [Outcome.ret.injEq, Option.some.injEq] at h
        exact Or.inr (Or.inr (Or.inl h.2.symm))
      · split at h
        · rename_i e2 r2 hbody
          simp only [Outcome.ret.injEq, Option.some.injEq] at h
          rcases ReadFull_error r1 r2 _ e2 hbody with h1 | h1
          · exact Or.inl (by rw [← h.2, h1, hf])
          · exact Or.inr (Or.inl (by rw [← h.2, h1]))
        · split at h
          · simp only [Outcome.ret.injEq, Option.some.injEq] at h
            exact Or.inr (Or.inr (Or.inr (Or.inl h.2.symm)))
          · split at h
            · simp at h
            · split at h
              · rename_i m e3 hdec
                simp only [Outcome.ret.injEq, Option.some.injEq] at h
                exact Or.inr (Or.inr (Or.inr (Or.inr ⟨_, _, m, by rw [← h.2]; exact hdec⟩)))
              · simp at h

/-- Where the error of `RecvMbPacket` comes from: the reader's own error or
`ErrUnexpectedEOF` (from the header read), the size check, the check of the body
length, or the error made for a failed body read. -/
theorem RecvMbPacket_error {M : Type} (r : Reader) (maxPacketSize : Int) (msg : Value M)
    (e : Error) (h : (RecvMbPacket r maxPacketSize : Run M).outcome = .ret msg (some e)) :
    e = r.fail ∨ e = .transport .ErrUnexpectedEOF ∨ e = .ErrMaxPacket ∨ e = .ErrShortMsgID ∨
      e = .New "RecvMbPacket read body failed" := by
  rcases hrf : ReadFull r mbHeaderSize with ⟨res, r1⟩
  cases res with
  | error e1 =>
    simp only [RecvMbPacket, hrf, Outcome.ret.injEq, Option.some.injEq] at h
    rcases ReadFull_error r r1 _ e1 hrf with h1 | h1
    · exact Or.inl (by rw [← h.2, h1])
    · exact Or.inr (Or.inl (by rw [← h.2, h1]))
  | ok header =>
    have hl := ReadFull_ok_length r r1 _ header hrf
    obtain ⟨n, hn⟩ := readUint32At_some header mbHeaderBodyLenPos (by rw [hl]; decide)
    unfold RecvMbPacket at h
    simp only [hrf, hn] at h
    rw [if_neg (by omega)] at h
    split at h
    · simp only [Outcome.ret.injEq, Option.some.injEq] at h
      exact Or.inr (Or.inr (Or.inl h.2.symm))
    · split at h
      · simp at h
      · split at h
        · simp only [Outcome.ret.injEq, Option.some.injEq] at h
          exact Or.inr (Or.inr (Or.inr (Or.inr h.2.symm)))
        · split at h
          · simp only [Outcome.ret.injEq, Option.some.injEq] at h
            exact Or.inr (Or.inr (Or.inr (Or.inl h.2.symm)))
          · simp at h

/-- Where the error of `RecvTkProxyPacket` comes from: the reader's own error or
`ErrUnexpectedEOF` (from the header read), the size check, or the error made for a
failed body read. -/
theorem RecvTkProxyPacket_error {M : Type} (r : Reader) (maxPacketSize : Int)
    (msg : Value M) (e : Error)
    (h : (RecvTkProxyPacket r maxPacketSize : Run M).outcome = .ret msg (some e)) :
    e = r.fail ∨ e = .transport .ErrUnexpectedEOF ∨ e = .ErrMaxPacket ∨
      e = .New "RecvTkProxyPacket, read body failed" := by
  rcases hrf : ReadFull r tkProxyHeaderSize with ⟨res, r1⟩
  cases res with
  | error e1 =>
    unfold RecvTkProxyPacket at h
    simp only [hrf] at h
    split at h
    · simp at h
    · simp only [Outcome.ret.injEq, Option.some.injEq] at h
      rcases ReadFull_error r r1 _ e1 hrf with h1 | h1
      · exact Or.inl (by rw [← h.2, h1])
      · exact Or.inr (Or.inl (by rw [← h.2, h1]))
  | ok header =>
    have hl := ReadFull_ok_length r r1 _ header hrf
    obtain ⟨n, hn⟩ := readUint32At_some header tkPorxyHeaderBodyLenPos (by rw [hl]; decide)
    unfold RecvTkProxyPacket at h
    simp only [hrf, hn] at h
    rw [if_neg (by omega)] at h
    split at h
    · simp only [Outcome.ret.injEq, Option.some.injEq] at h
      exact Or.inr (Or.inr (Or.inl h.2.symm))
    · split at h
      · simp at h
      · split at h
        · simp at h
        · split at h
          · simp only [Outcome.ret.injEq, Option.some.injEq] at h
            exact Or.inr (Or.inr (Or.inr h.2.symm))
          · simp at h

/-- C20, counterexample: a reader that fails with `ErrMinPacket` itself. Each routine
hands the reader's error on unchanged, so each returns `ErrMinPacket`. -/
theorem reader_error_ErrMinPacket_returned :
    (RecvLTVPacket echoDecoder ⟨[], .ErrMinPacket⟩ 0).outcome
      = .ret .nil (some .ErrMinPacket) ∧
    (RecvMbPacket ⟨[], .ErrMinPacket⟩ 0 : Run Unit).outcome
      = .ret .nil (some .ErrMinPacket) ∧
    (RecvTkProxyPacket ⟨[], .ErrMinPacket⟩ 0 : Run Unit).outcome
      = .ret .nil (some .ErrMinPacket) := by
  decide

/-- C20, amended: the defensive branches of the receive routines are not reachable,
because a header that was read has its full length (2, 8, 24) and the length field at
offset 4, respectively 20, lies within it. So for every `maxPacketSize` and every
reader that does not itself fail with `ErrMinPacket` (and, for `RecvLTVPacket`, a
`DecodeMessage` that does not return it), none of `RecvLTVPacket`, `RecvMbPacket` and
`RecvTkProxyPacket` returns `ErrMinPacket`; and for every reader that does not itself
fail with a "read header failed" error, `RecvMbPacket` and `RecvTkProxyPacket` do not
return theirs. -/
theorem defensive_branches_unreachable :
    (∀ (M : Type) (decode : Decoder M) (r : Reader) (maxPacketSize : Int) (msg : Value M),
        r.fail ≠ .ErrMinPacket →
        (∀ id data m, decode id data ≠ (m, some .ErrMinPacket)) →
        (RecvLTVPacket decode r maxPacketSize).outcome ≠ .ret msg (some .ErrMinPacket)) ∧
    (∀ (M : Type) (r : Reader) (maxPacketSize : Int) (msg : Value M),
        (r.fail ≠ .ErrMinPacket →
          (RecvMbPacket r maxPacketSize : Run M).outcome ≠ .ret msg (some .ErrMinPacket)) ∧
        (r.fail ≠ .New "RecvMbPacket read header failed" →
          (RecvMbPacket r maxPacketSize : Run M).outcome
            ≠ .ret msg (some (.New "RecvMbPacket read header failed")))) ∧
    (∀ (M : Type) (r : Reader) (maxPacketSize : Int) (msg : Value M),
        (r.fail ≠ .ErrMinPacket →
          (RecvTkProxyPacket r maxPacketSize : Run M).outcome
            ≠ .ret msg (some .ErrMinPacket)) ∧
        (r.fail ≠ .New "RecvTkProxyPacket read header failed" →
          (RecvTkProxyPacket r maxPacketSize : Run M).outcome
            ≠ .ret msg (some (.New "RecvTkProxyPacket read header failed")))) := by
  refine ⟨?_, ?_, ?_⟩
  · intro M decode r maxPacketSize msg hr hd h
    rcases RecvLTVPacket_error decode r maxPacketSize msg _ h with h1 | h1 | h1 | h1 | h1
    · exact hr h1.symm
    · cases h1
    · cases h1
    · cases h1
    · obtain ⟨id, data, m, hdec⟩ := h1
      exact hd id data m hdec
  · intro M r maxPacketSize msg
    constructor
    · intro hr h
      rcases RecvMbPacket_error r maxPacketSize msg _ h with h1 | h1 | h1 | h1 | h1
      · exact hr h1.symm
      all_goals cases h1
    · intro hr h
      rcases RecvMbPacket_error r maxPacketSize msg _ h with h1 | h1 | h1 | h1 | h1
      · exact hr h1.symm
      · cases h1
      · cases h1
      · cases h1
      · simp at h1
  · intro M r maxPacketSize msg
    constructor
    · intro hr h
      rcases RecvTkProxyPacket_error r maxPacketSize msg _ h with h1 | h1 | h1 | h1
      · exact hr h1.symm
      all_goals cases h1
    · intro hr h
      rcases RecvTkProxyPacket_error r maxPacketSize msg _ h with h1 | h1 | h1 | h1
      · exact hr h1.symm
      · cases h1
      · cases h1
      · simp at h1

/-- C20 as amended, run on readers that end, respectively time out, inside the
header. -/
theorem defensive_branches_unreachable_witness :
    (RecvLTVPacket echoDecoder ⟨[4], .transport .EOF⟩ 0).outcome
      ≠ .ret .nil (some .ErrMinPacket) ∧
    (RecvMbPacket ⟨[1, 2, 3], .transport .EOF⟩ 0 : Run Unit).outcome
      ≠ .ret .nil (some .ErrMinPacket) ∧
    (RecvMbPacket ⟨[1, 2, 3], .transport .EOF⟩ 0 : Run Unit).outcome
      ≠ .ret .nil (some (.New "RecvMbPacket read header failed")) ∧
    (RecvTkProxyPacket ⟨[1, 2, 3], .transport (.net 110 false)⟩ 0 : Run Unit).outcome
      ≠ .ret .nil (some .ErrMinPacket) ∧
    (RecvTkProxyPacket ⟨[1, 2, 3], .transport (.net 110 false)⟩ 0 : Run Unit).outcome
      ≠ .ret .nil (some (.New "RecvTkProxyPacket read header failed")) :=
  ⟨defensive_branches_unreachable.1 _ echoDecoder ⟨[4], .transport .EOF⟩ 0 .nil (by decide)
      (fun id data m h => by unfold echoDecoder at h; split at h <;> simp at h),
    (defensive_branches_unreachable.2.1 Unit ⟨[1, 2, 3], .transport .EOF⟩ 0 .nil).1
      (by decide),
    (defensive_branches_unreachable.2.1 Unit ⟨[1, 2, 3], .transport .EOF⟩ 0 .nil).2
      (by decide),
    (defensive_branches_unreachable.2.2 Unit ⟨[1, 2, 3], .transport (.net 110 false)⟩ 0
      .nil).1 (by decide),
    (defensive_branches_unreachable.2.2 Unit ⟨[1, 2, 3], .transport (.net 110 false)⟩ 0
      .nil).2 (by decide)⟩

end Cellnet
